import Mathlib

/-!
# WNLogging: the log-message lifecycle

A shallow embedding of `src/WNLogging.h` and `src/WNLogging.cpp`.

* A C `char` is a `Char`; a C string or byte range is a `List Char`, one list
  element per byte.
* `size_t` values are `Nat` with explicit reduction modulo `2 ^ 64`.
* `int`, `long`, `time_t` and the `LogSeverity` enumeration are `Int`.
* An array access outside `message_text_` is undefined behaviour; `Flush`
  returns `none` there.
* The process-wide state (`errno`, `FLAGS_minlogSeverity`, `std::cout`,
  `g_current_log_file`, the files on disk, and whether `abort()` has been
  called) is the structure `World`. It keeps apart what has been passed to a
  stdio stream (`cout`, `disk`) and what has left the stream's buffer for the
  device (`stdout_device`, `file_device`): nothing in the source flushes, and
  `abort()` drops what is still buffered.
* What the platform supplies to one logging statement (the indeterminate
  initial bytes of `message_text_`, the clock, the text that `operator<<`
  prints for the thread id, and the values `errno` is left with by library
  calls) is the structure `Env`.
-/

namespace wn

/-! ## Constants and the severity scale -/

/-- The constant `kMaxLogMessageLen = 2*1024`. -/
def kMaxLogMessageLen : Nat := 2 * 1024

def LogSeverity_NEVER : Int := -1
def LogSeverity_DEBUG : Int := 0
def LogSeverity_TESTS : Int := 1
def LogSeverity_INFO : Int := 2
def LogSeverity_WARNING : Int := 3
def LogSeverity_ERROR : Int := 4
def LogSeverity_FATAL : Int := 5

/-- Conversion of an `int` to a `char`, as in `data_->severity_ = severity`;
`char` is the signed 8 bit type of the platforms the code targets. -/
def toSignedChar (v : Int) : Int := (v + 128) % 256 - 128

/-- Subtraction of two `size_t` values. -/
def size_t_sub (a b : Nat) : Nat := (a + 2 ^ 64 - b % 2 ^ 64) % 2 ^ 64

/-- Increment of a `size_t` value. -/
def size_t_succ (a : Nat) : Nat := (a + 1) % 2 ^ 64

/-- The function `GetLogSeverityName`. -/
def GetLogSeverityName (severity : Int) : List Char :=
  if severity = LogSeverity_TESTS then ['T']
  else if severity = LogSeverity_NEVER then ['N']
  else if severity = LogSeverity_DEBUG then ['D']
  else if severity = LogSeverity_INFO then ['I']
  else if severity = LogSeverity_WARNING then ['W']
  else if severity = LogSeverity_ERROR then ['E']
  else if severity = LogSeverity_FATAL then ['F']
  else ['U']

/-- The library function `strrchr(s, c)`: the offset of the last occurrence
of `c` in `s`, or `none` (the null pointer). -/
def strrchr : List Char → Char → Option Nat
  | [], _ => none
  | x :: s, c =>
    match strrchr s c with
    | some i => some (i + 1)
    | none => if x = c then some 0 else none

/-- The function `const_basename`. -/
def const_basename (filepath : List Char) : List Char :=
  match strrchr filepath '/' with
  | some base => filepath.drop (base + 1)
  | none => filepath

/-! ## The bounded stream buffer -/

/-- The class `LogStreamBuf`: the put area of a `std::streambuf`, as offsets
into the character array it was given (`pbase()` is offset `0`). -/
structure LogStreamBuf where
  pptr : Nat
  epptr : Nat
deriving DecidableEq, Repr

/-- The constructor `LogStreamBuf(buf, len)`: `setp(buf, buf + len - 2)`. -/
def LogStreamBuf.mk_setp (len : Nat) : LogStreamBuf := ⟨0, len - 2⟩

/-- The member `LogStreamBuf::pcount`: `pptr() - pbase()`. -/
def LogStreamBuf.pcount (sb : LogStreamBuf) : Nat := sb.pptr

/-- The member `LogStreamBuf::overflow`: returns its argument, never
`eof` (`none`). -/
def LogStreamBuf.overflow (ch : Char) : Option Char := some ch

/-- The member `std::streambuf::sputc`: stores the character when the put
area has room, and otherwise returns what `overflow` returns. -/
def sputc (buf : List Char) (sb : LogStreamBuf) (ch : Char) :
    List Char × LogStreamBuf × Option Char :=
  if sb.pptr < sb.epptr then
    (buf.set sb.pptr ch, { sb with pptr := sb.pptr + 1 }, some ch)
  else
    (buf, sb, LogStreamBuf.overflow ch)

/-- The member `std::streambuf::xsputn`: repeated `sputc`, stopping at the
first `eof`; returns the number of characters reported written. -/
def xsputn : List Char → LogStreamBuf → List Char → List Char × LogStreamBuf × Nat
  | buf, sb, [] => (buf, sb, 0)
  | buf, sb, ch :: s =>
    match sputc buf sb ch with
    | (buf1, sb1, none) => (buf1, sb1, 0)
    | (buf1, sb1, some _) =>
      let r := xsputn buf1 sb1 s
      (r.1, r.2.1, r.2.2 + 1)

/-- The class `LogMessage::LogStream`: a `std::ostream` over a
`LogStreamBuf`, with the formatting state the logger uses. -/
structure LogStream where
  streambuf_ : LogStreamBuf
  fill : Char
  width : Nat
  badbit : Bool
deriving DecidableEq, Repr

/-- The constructor `LogStream(buf, len)`. -/
def LogStream.new (len : Nat) : LogStream :=
  { streambuf_ := LogStreamBuf.mk_setp len, fill := ' ', width := 0, badbit := false }

/-- The member `LogStream::pcount`. -/
def LogStream.pcount (os : LogStream) : Nat := os.streambuf_.pcount

/-- Padding of a formatted field: the stream never sets `left` or `internal`,
so the fill characters come first. -/
def padField (os : LogStream) (s : List Char) : List Char :=
  List.replicate (os.width - s.length) os.fill ++ s

/-- A formatted insertion `os << s` of the text `s` (a string, a character,
or the digits of a number): nothing when the stream is not good; otherwise
the padded field goes through `xsputn`, the width is reset, and a short
count sets `badbit`. -/
def ostream_insert (buf : List Char) (os : LogStream) (s : List Char) :
    List Char × LogStream :=
  if os.badbit then (buf, os)
  else
    let field := padField os s
    let r := xsputn buf os.streambuf_ field
    (r.1, { os with streambuf_ := r.2.1, width := 0,
                    badbit := decide (r.2.2 ≠ field.length) })

/-- The text `operator<<` produces for an `int` or `long`: the stream keeps
its default flags (base ten, no sign for positive numbers) and the classic
locale (no digit grouping). -/
def fmtInt (v : Int) : List Char :=
  if v < 0 then '-' :: Nat.toDigits 10 v.natAbs else Nat.toDigits 10 v.natAbs

/-! ## The message record -/

/-- The member-function pointer `send_method_`; both constructors pass
`&LogMessage::SendToLog`. -/
inductive SendMethod where
  | SendToLog
deriving DecidableEq, Repr

/-- The structure `LogMessage::LogMessageData` (the member `message_`, which
is never assigned or read, is left out). -/
structure LogMessageData where
  preserved_errno_ : Int
  message_text_ : List Char
  stream_ : LogStream
  severity_ : Int
  line_ : Int
  send_method_ : SendMethod
  num_prefix_chars_ : Nat
  num_chars_to_log_ : Nat
  num_chars_to_syslog_ : Nat
  basename_ : List Char
  fullname_ : List Char
  functionname_ : List Char
  has_been_flushed_ : Bool
  first_fatal_ : Bool
  timestamp_ : Int
deriving DecidableEq, Repr

/-- The bytes of `message_text_` below the stream's write cursor. -/
def LogMessageData.stored (d : LogMessageData) : List Char :=
  d.message_text_.take d.stream_.pcount

/-- The first `num_prefix_chars_` bytes of `message_text_`: the prefix. -/
def LogMessageData.prefixBytes (d : LogMessageData) : List Char :=
  d.message_text_.take d.num_prefix_chars_

/-- The fields of `struct tm` that `Init` reads. -/
structure tm where
  tm_sec : Int
  tm_min : Int
  tm_hour : Int
  tm_mday : Int
  tm_mon : Int
deriving DecidableEq, Repr

/-- What the platform supplies to one logging statement. -/
structure Env where
  /-- the indeterminate initial contents of `message_text_` -/
  uninit : List Char
  /-- the value of `time(NULL)` -/
  now : Int
  /-- the result of `localtime_r` -/
  tm_time : tm
  /-- the field `tv_usec` set by `gettimeofday` -/
  tv_usec : Int
  /-- the text `operator<<` prints for `(void*)pthread_self()` -/
  thread_id : List Char
  /-- the value of `errno` once the prefix has been formatted -/
  errno_after_init : Int
  /-- the value of `errno` once the caller has streamed its content -/
  errno_after_stream : Int
  /-- the value of `errno` once the console and file writes are done -/
  errno_after_send : Int
  /-- how many bytes the stdio buffer of `stdout` hands on to the device
  during `std::cout.write`: all of them on an unbuffered stream, those up to
  the last newline on a terminal, none on a file or pipe whose buffer has not
  filled -/
  stdout_flush_count : Nat
  /-- how many bytes the stdio buffer of the log file's stream hands on to
  the disk during `fwrite` -/
  file_flush_count : Nat
deriving DecidableEq, Repr

/-- The process-wide state. The members `cout` and `disk` record what has
been passed to the stdio streams; what has left their buffers is in
`stdout_device` and `file_device`. -/
structure World where
  errno : Int
  FLAGS_minlogSeverity : Int
  /-- the byte ranges passed to `std::cout.write`, oldest first -/
  cout : List (List Char)
  /-- the name of the file `g_current_log_file` is open on; `none` is `NULL` -/
  g_current_log_file : Option (List Char)
  /-- the files: name, and the contents the file has once every stream
  written to it has been flushed or closed -/
  disk : List (List Char × List Char)
  /-- whether `abort()` has been called -/
  aborted : Bool
  /-- the names of the files on which a stream returned by `fopen` has not
  been given to `fclose` yet -/
  open_streams : List (List Char) := []
  /-- the bytes that have left the stdio buffer of `stdout` for the device
  behind it (terminal, file or pipe) -/
  stdout_device : List Char := []
  /-- the bytes still in the stdio buffer of `stdout` -/
  stdout_buffer : List Char := []
  /-- the bytes the stream `g_current_log_file` has put on the disk since it
  was opened -/
  file_device : List Char := []
  /-- the bytes still in the stdio buffer of the stream
  `g_current_log_file` -/
  file_buffer : List Char := []
deriving DecidableEq, Repr

/-- The state of a process at start: threshold `INFO`, no log file. -/
def World.start : World :=
  { errno := 0, FLAGS_minlogSeverity := LogSeverity_INFO, cout := [],
    g_current_log_file := none, disk := [], aborted := false }

/-- The constructor `LogMessageData()`: `message_text_` holds
`kMaxLogMessageLen + 1` indeterminate bytes, `stream_` is built over it with
length `kMaxLogMessageLen`; the other members are set by `Init`. -/
def LogMessageData.new (uninit : List Char) : LogMessageData :=
  { preserved_errno_ := 0
    message_text_ := (uninit ++ List.replicate (kMaxLogMessageLen + 1) '\x00').take
      (kMaxLogMessageLen + 1)
    stream_ := LogStream.new kMaxLogMessageLen
    severity_ := 0
    line_ := 0
    send_method_ := SendMethod.SendToLog
    num_prefix_chars_ := 0
    num_chars_to_log_ := 0
    num_chars_to_syslog_ := 0
    basename_ := []
    fullname_ := []
    functionname_ := []
    has_been_flushed_ := false
    first_fatal_ := false
    timestamp_ := 0 }

/-- A formatted insertion `stream() << s` on a record. -/
def LogMessageData.put (d : LogMessageData) (s : List Char) : LogMessageData :=
  let r := ostream_insert d.message_text_ d.stream_ s
  { d with message_text_ := r.1, stream_ := r.2 }

/-- The manipulator `setw(n)` applied to a record's stream. -/
def LogMessageData.setw (d : LogMessageData) (n : Nat) : LogMessageData :=
  { d with stream_ := { d.stream_ with width := n } }

/-- The manipulator `setfill(c)`, and `stream().fill(c)`. -/
def LogMessageData.setfill (d : LogMessageData) (c : Char) : LogMessageData :=
  { d with stream_ := { d.stream_ with fill := c } }

/-- The assignments at the start of `Init` (lines 143 to 157): the record is
allocated and every member but `message_text_` receives its value. -/
def InitFields (env : Env) (w : World) (file function : List Char) (line severity : Int)
    (send_method : SendMethod) : LogMessageData :=
  { LogMessageData.new env.uninit with
    first_fatal_ := false
    stream_ := { LogStream.new kMaxLogMessageLen with fill := '0' }
    preserved_errno_ := w.errno
    severity_ := toSignedChar severity
    line_ := line
    send_method_ := send_method
    basename_ := const_basename file
    num_chars_to_log_ := 0
    num_chars_to_syslog_ := 0
    fullname_ := file
    functionname_ := function
    has_been_flushed_ := false }

/-- The insertions of `Init` up to the time stamp (lines 162 to 180). -/
def InitDateTime (env : Env) (severity : Int) (d : LogMessageData) : LogMessageData :=
  let d := (d.put ['[']).put (GetLogSeverityName severity)
  let d := { d with timestamp_ := env.now }
  let d := ((d.put [' ']).setw 2).put (fmtInt (1 + env.tm_time.tm_mon))
  let d := ((d.put ['/']).setw 2).put (fmtInt env.tm_time.tm_mday)
  let d := ((d.put [' ']).setw 2).put (fmtInt env.tm_time.tm_hour)
  let d := ((d.put [':']).setw 2).put (fmtInt env.tm_time.tm_min)
  let d := ((d.put [':']).setw 2).put (fmtInt env.tm_time.tm_sec)
  let d := ((d.put ['.']).setw 3).put (fmtInt (Int.tdiv env.tv_usec 1000))
  (d.put [' ']).put (fmtInt d.timestamp_)

/-- The insertions of `Init` for thread, file, function and line (lines 183
to 189). -/
def InitLocation (env : Env) (d : LogMessageData) : LogMessageData :=
  let d := (((d.put [' ']).setfill ' ').setw 5).put env.thread_id
  let d := (d.put [' ']).put d.basename_
  let d := if d.functionname_ ≠ [] then (d.put [' ']).put d.functionname_ else d
  ((d.put [':']).put (fmtInt d.line_)).put [']', ' ']

/-- The member `LogMessage::Init`. -/
def Init (env : Env) (w : World) (file function : List Char) (line severity : Int)
    (send_method : SendMethod) : LogMessageData × World :=
  let d := InitFields env w file function line severity send_method
  let d := InitDateTime env severity d
  let d := InitLocation env d
  let d := { d with num_prefix_chars_ := d.stream_.pcount }
  (d, { w with errno := env.errno_after_init })

/-- The caller's insertions `stream() << ...`, whose text is `content`. -/
def streamContent (env : Env) (d : LogMessageData) (w : World) (content : List Char) :
    LogMessageData × World :=
  (d.put content, { w with errno := env.errno_after_stream })

/-- The library call `fwrite` on the file named `name`: the bytes are added
at its end. -/
def fwrite (disk : List (List Char × List Char)) (name bytes : List Char) :
    List (List Char × List Char) :=
  disk.map fun f => if f.1 = name then (f.1, f.2 ++ bytes) else f

/-- The body of `SendToLog` between `pthread_mutex_lock` and
`pthread_mutex_unlock`: `std::cout.write`, then `fwrite` when
`g_current_log_file` is not `NULL`. Both calls put the bytes in a stdio
buffer, from which the platform moves what it moves to the device. -/
def sinkWrite (env : Env) (w : World) (bytes : List Char) : World :=
  { w with
    cout := w.cout ++ [bytes]
    disk := match w.g_current_log_file with
      | some name => fwrite w.disk name bytes
      | none => w.disk
    errno := env.errno_after_send
    stdout_device := w.stdout_device ++ (w.stdout_buffer ++ bytes).take env.stdout_flush_count
    stdout_buffer := (w.stdout_buffer ++ bytes).drop env.stdout_flush_count
    file_device := match w.g_current_log_file with
      | some _ => w.file_device ++ (w.file_buffer ++ bytes).take env.file_flush_count
      | none => w.file_device
    file_buffer := match w.g_current_log_file with
      | some _ => (w.file_buffer ++ bytes).drop env.file_flush_count
      | none => w.file_buffer }

/-- The member `LogMessage::SendToLog`; `none` when the byte range leaves
`message_text_`. -/
def SendToLog (env : Env) (d : LogMessageData) (w : World) : Option World :=
  if size_t_sub d.num_chars_to_log_ d.num_prefix_chars_ > 1 then
    if d.num_chars_to_log_ ≤ d.message_text_.length then
      some (sinkWrite env w (d.message_text_.take d.num_chars_to_log_))
    else none
  else some w

/-- The library call `abort()`: the process ends at once and no stdio
buffer is flushed, so the bytes still in the buffers of `stdout` and of the
log file's stream are dropped and never reach the device or the disk. -/
def abort (w : World) : World :=
  { w with aborted := true, stdout_buffer := [], file_buffer := [] }

/-- The member `LogMessage::Flush`; `none` when an access leaves
`message_text_`. -/
def Flush (env : Env) (d : LogMessageData) (w : World) : Option (LogMessageData × World) :=
  if d.has_been_flushed_ = true ∨ d.severity_ < w.FLAGS_minlogSeverity then some (d, w)
  else do
    let d := { d with num_chars_to_log_ := d.stream_.pcount }
    let d := { d with
      num_chars_to_syslog_ := size_t_sub d.num_chars_to_log_ d.num_prefix_chars_ }
    let last ← d.message_text_[size_t_sub d.num_chars_to_log_ 1]?
    let append_newline : Bool := last != '\n'
    let original_final_char ←
      if append_newline then d.message_text_[d.num_chars_to_log_]? else some '\x00'
    let d := if append_newline then
        { d with message_text_ := d.message_text_.set d.num_chars_to_log_ '\n',
                 num_chars_to_log_ := size_t_succ d.num_chars_to_log_ }
      else d
    let w ← match d.send_method_ with
      | SendMethod.SendToLog => SendToLog env d w
    let d ← if append_newline then
        (if size_t_sub d.num_chars_to_log_ 1 < d.message_text_.length then
          some { d with message_text_ :=
            d.message_text_.set (size_t_sub d.num_chars_to_log_ 1) original_final_char }
         else none)
      else some d
    let w := if d.preserved_errno_ ≠ 0 then { w with errno := d.preserved_errno_ } else w
    let d := { d with has_been_flushed_ := true }
    let w := if d.severity_ = LogSeverity_FATAL then abort w else w
    some (d, w)

/-- A sequence of flush requests on one record, one `Env` per request; the
requests after an `abort()` do not happen. -/
def FlushAll : List Env → LogMessageData → World → Option (LogMessageData × World)
  | [], d, w => some (d, w)
  | env :: envs, d, w =>
    match Flush env d w with
    | none => none
    | some (d1, w1) => if w1.aborted then some (d1, w1) else FlushAll envs d1 w1

/-- The destructor `~LogMessage`: `Flush()`, then the record is deleted. -/
def LogMessage_dtor (env : Env) (d : LogMessageData) (w : World) : Option World :=
  (Flush env d w).map Prod.snd

/-- The constructor `LogMessage(file, function, line, severity)`. -/
def LogMessage_ctor (env : Env) (w : World) (file function : List Char)
    (line severity : Int) : LogMessageData × World :=
  Init env w file function line severity SendMethod.SendToLog

/-- The record of a logging statement just before its destructor runs:
constructed, then `content` streamed into it. -/
def record (env : Env) (w : World) (file function : List Char) (line severity : Int)
    (content : List Char) : LogMessageData × World :=
  let r := LogMessage_ctor env w file function line severity
  streamContent env r.1 r.2 content

/-- One logging statement
`LogMessage(file, function, line, severity).stream() << content;`. -/
def logStatement (env : Env) (w : World) (file function : List Char) (line severity : Int)
    (content : List Char) : Option World :=
  let r := record env w file function line severity content
  LogMessage_dtor env r.1 r.2

/-! ## The text `Init` formats -/

/-- A field of width `w` filled on the left with `c`. -/
def padTo (w : Nat) (c : Char) (s : List Char) : List Char :=
  List.replicate (w - s.length) c ++ s

/-- The text inserted by `InitDateTime`. -/
def dateTimeText (env : Env) (severity : Int) : List Char :=
  ['['] ++ GetLogSeverityName severity
    ++ [' '] ++ padTo 2 '0' (fmtInt (1 + env.tm_time.tm_mon))
    ++ ['/'] ++ padTo 2 '0' (fmtInt env.tm_time.tm_mday)
    ++ [' '] ++ padTo 2 '0' (fmtInt env.tm_time.tm_hour)
    ++ [':'] ++ padTo 2 '0' (fmtInt env.tm_time.tm_min)
    ++ [':'] ++ padTo 2 '0' (fmtInt env.tm_time.tm_sec)
    ++ ['.'] ++ padTo 3 '0' (fmtInt (Int.tdiv env.tv_usec 1000))
    ++ [' '] ++ fmtInt env.now

/-- The text inserted by `InitLocation`. -/
def locationText (env : Env) (file function : List Char) (line : Int) : List Char :=
  [' '] ++ padTo 5 ' ' env.thread_id
    ++ [' '] ++ const_basename file
    ++ (if function ≠ [] then [' '] ++ function else [])
    ++ [':'] ++ fmtInt line ++ [']', ' ']

/-- The whole text `Init` inserts, before any truncation. -/
def prefixText (env : Env) (file function : List Char) (line severity : Int) : List Char :=
  dateTimeText env severity ++ locationText env file function line

/-- The buffer of the record holds the first `kMaxLogMessageLen - 2` bytes
of the text `t`, the stream is good and its field width is zero. -/
def Holds (d : LogMessageData) (t : List Char) : Prop :=
  d.message_text_.length = kMaxLogMessageLen + 1 ∧
  d.stream_.streambuf_.epptr = kMaxLogMessageLen - 2 ∧
  d.stream_.streambuf_.pptr = min t.length (kMaxLogMessageLen - 2) ∧
  d.message_text_.take d.stream_.streambuf_.pptr = t.take (kMaxLogMessageLen - 2) ∧
  d.stream_.badbit = false ∧
  d.stream_.width = 0

/-- The byte range `Flush` hands to the send method when the buffer holds
`stored`: a newline is added unless the last byte is one. -/
def withNewline (stored : List Char) : List Char :=
  if stored.getLast? = some '\n' then stored else stored ++ ['\n']

/-- The world once `Flush` has dispatched to the send method and restored
`errno`, before it looks at the severity: for a record with preserved error
code `e` and prefix length `p` whose buffer holds `stored`. -/
def dispatchedWorld (env : Env) (w : World) (e : Int) (p : Nat) (stored : List Char) :
    World :=
  let w1 := if (withNewline stored).length > p + 1 then sinkWrite env w (withNewline stored)
    else w
  if e ≠ 0 then { w1 with errno := e } else w1

/-- The world `Flush` leaves when it gets past its guard, for a record with
preserved error code `e`, severity `sev` and prefix length `p` whose buffer
holds `stored`. -/
def flushedWorld (env : Env) (w : World) (e sev : Int) (p : Nat) (stored : List Char) :
    World :=
  if sev = LogSeverity_FATAL then abort (dispatchedWorld env w e p stored)
  else dispatchedWorld env w e p stored

/-! ## The prefix as the specification words it -/

/-- The severity letter of the specification: `N`, `D`, `T`, `I`, `W`, `E`,
`F` for `NEVER` to `FATAL`, and `U` for any other value. -/
def spec_letter (severity : Int) : Char :=
  if severity = -1 then 'N'
  else if severity = 0 then 'D'
  else if severity = 1 then 'T'
  else if severity = 2 then 'I'
  else if severity = 3 then 'W'
  else if severity = 4 then 'E'
  else if severity = 5 then 'F'
  else 'U'

/-- The decimal digits of an integer, with a minus sign when negative. -/
def spec_decimal (v : Int) : List Char := (toString v).toList

/-- A natural number in decimal, zero-padded on the left to `width` digits. -/
def spec_pad0 (width : Nat) (v : Nat) : List Char :=
  List.replicate (width - (toString v).length) '0' ++ (toString v).toList

/-- A text right-justified with spaces in a field of `width` characters. -/
def spec_padspace_left (width : Nat) (s : List Char) : List Char :=
  List.replicate (width - s.length) ' ' ++ s

/-- The prefix of the specification,
`[<letter> <MM>/<DD> <HH>:<MM>:<SS>.<mmm> <epoch> <thread> <basename>[ <function>]:<line>] `,
where the month is `1 + tm_mon` and the milliseconds are `usec / 1000`. -/
def spec_prefix_text (severity : Int) (tm_mon tm_mday tm_hour tm_min tm_sec usec : Nat)
    (epoch : Int) (thread_id path function : List Char) (line : Int) : List Char :=
  ['['] ++ [spec_letter severity] ++ [' ']
    ++ spec_pad0 2 (1 + tm_mon) ++ ['/'] ++ spec_pad0 2 tm_mday ++ [' ']
    ++ spec_pad0 2 tm_hour ++ [':'] ++ spec_pad0 2 tm_min ++ [':']
    ++ spec_pad0 2 tm_sec ++ ['.'] ++ spec_pad0 3 (usec / 1000) ++ [' ']
    ++ spec_decimal epoch ++ [' '] ++ spec_padspace_left 5 thread_id ++ [' ']
    ++ const_basename path ++ (if function = [] then [] else [' '] ++ function)
    ++ [':'] ++ spec_decimal line ++ [']', ' ']

/-! ## The destination file -/

/-- The macro `__FILENAME__` applied to the path `__FILE__`. -/
def FILENAME (file : List Char) : List Char :=
  match strrchr file '/' with
  | some base => file.drop (base + 1)
  | none => file

/-- The effect on the disk of a successful `fopen(name, "w")`: the file
exists and is empty. -/
def fopen_w (disk : List (List Char × List Char)) (name : List Char) :
    List (List Char × List Char) :=
  (name, []) :: disk.filter fun f => f.1 ≠ name

/-- The contents of the file `name`, once what was written to it has reached
the disk; `none` when there is no such file. -/
def fileContents (disk : List (List Char × List Char)) (name : List Char) :
    Option (List Char) :=
  (disk.find? fun f => f.1 = name).map Prod.snd

/-- The bytes the file `name` holds on the disk now: those the stream has
put there when `g_current_log_file` is open on it, and the recorded contents
otherwise. -/
def fileOnDisk (w : World) (name : List Char) : Option (List Char) :=
  if w.g_current_log_file = some name then some w.file_device
  else fileContents w.disk name

/-- What the platform supplies to one call of `SetCurrentLogFilename`:
whether `fopen` succeeds, and the values `fclose` and `fopen` leave in
`errno`. -/
structure FileEnv where
  fopen_ok : Bool
  errno_after_fclose : Int
  errno_after_fopen : Int
deriving DecidableEq, Repr

/-- The function `SetCurrentLogFilename`; `filename` is `none` for `NULL`.
`fclose` flushes the stream's buffer to the disk, after which the file has
the contents recorded in `disk`. -/
def SetCurrentLogFilename (fe : FileEnv) (filename : Option (List Char)) (w : World) :
    World :=
  let w := match w.g_current_log_file with
    | some name =>
      { w with g_current_log_file := none, open_streams := w.open_streams.erase name,
               errno := fe.errno_after_fclose, file_device := [], file_buffer := [] }
    | none => w
  match filename with
  | some f =>
    if f ≠ [] then
      if fe.fopen_ok then
        { w with g_current_log_file := some f, disk := fopen_w w.disk f,
                 open_streams := w.open_streams ++ [f], errno := fe.errno_after_fopen,
                 file_device := [], file_buffer := [] }
      else { w with g_current_log_file := none, errno := fe.errno_after_fopen }
    else w
  | none => w

/-- One call of the logging interface. -/
inductive Op where
  | setFile (fe : FileEnv) (filename : Option (List Char))
  | log (env : Env) (file function : List Char) (line severity : Int) (content : List Char)

/-- The effect of one call; `none` is undefined behaviour. -/
def Op.step : Op → World → Option World
  | Op.setFile fe filename, w => some (SetCurrentLogFilename fe filename w)
  | Op.log env file function line severity content, w =>
    logStatement env w file function line severity content

/-- A sequence of calls; the calls after an `abort()` do not happen. -/
def runOps : List Op → World → Option World
  | [], w => some w
  | op :: ops, w =>
    if w.aborted then some w
    else match op.step w with
      | none => none
      | some w1 => runOps ops w1

/-! ## The check macros -/

/-- The overload `check_eq(int, int)`. -/
def check_eq (val1 val2 : Int) : Bool := val1 == val2

/-- The text `operator<<` produces for a `bool` (`boolalpha` is not set). -/
def fmtBool (b : Bool) : List Char := if b then ['1'] else ['0']

/-- The loop `for (unsigned int C = 0; C < 1 && failed; ++C) body` of the
check macros, entered with the counter at `C`; returns the world and the
number of times the body has run, added to `n`. -/
def checkLoop (failed : Bool) (body : World → Option World) (C : Nat) (w : World)
    (n : Nat) : Option (World × Nat) :=
  if C < 1 ∧ failed = true then
    match body w with
    | none => none
    | some w1 =>
      if w1.aborted then some (w1, n + 1)
      else checkLoop failed body ((C + 1) % 2 ^ 32) w1 (n + 1)
  else some (w, n)
termination_by 1 - C
decreasing_by omega

/-- The text the macro `CHECK_SEV` streams before the caller's own. -/
def CHECK_SEV_text (cond : Bool) : List Char :=
  "check ".toList ++ ", failed, cond, ".toList ++ fmtBool cond ++ " ; ".toList

/-- The text the macro `CHECK_EQ_SEV` streams before the caller's own. -/
def CHECK_EQ_SEV_text (val1 val2 : Int) : List Char :=
  "check_eq".toList ++ ", failed, val1, ".toList ++ fmtInt val1 ++ ", val2, ".toList
    ++ fmtInt val2 ++ " ; ".toList

/-- The statement `CHECK_SEV(cond, severity) << rest;`. -/
def CHECK_SEV (env : Env) (w : World) (file function : List Char) (line : Int)
    (cond : Bool) (severity : Int) (rest : List Char) : Option (World × Nat) :=
  checkLoop (!cond)
    (fun v => logStatement env v file function line severity (CHECK_SEV_text cond ++ rest))
    0 w 0

/-- The statement `CHECK_EQ_SEV(val1, val2, severity) << rest;` on `int`s. -/
def CHECK_EQ_SEV (env : Env) (w : World) (file function : List Char) (line : Int)
    (val1 val2 : Int) (severity : Int) (rest : List Char) : Option (World × Nat) :=
  checkLoop (!check_eq val1 val2)
    (fun v => logStatement env v file function line severity
      (CHECK_EQ_SEV_text val1 val2 ++ rest))
    0 w 0

/-- The statement `CHECK(cond) << rest;`. -/
def CHECK (env : Env) (w : World) (file function : List Char) (line : Int)
    (cond : Bool) (rest : List Char) : Option (World × Nat) :=
  CHECK_SEV env w file function line cond LogSeverity_ERROR rest

/-- The statement `CHECK_EQ(val1, val2) << rest;` on `int`s. -/
def CHECK_EQ (env : Env) (w : World) (file function : List Char) (line : Int)
    (val1 val2 : Int) (rest : List Char) : Option (World × Nat) :=
  CHECK_EQ_SEV env w file function line val1 val2 LogSeverity_FATAL rest

/-! ## Sample inputs -/

/-- A platform state: second of January, 03:04:05.007, thread `0x7f`,
`stdout` and the log file fully buffered. -/
def sampleEnv : Env :=
  { uninit := []
    now := 1700000000
    tm_time := { tm_sec := 5, tm_min := 4, tm_hour := 3, tm_mday := 2, tm_mon := 0 }
    tv_usec := 7999
    thread_id := ['0', 'x', '7', 'f']
    errno_after_init := 2
    errno_after_stream := 2
    errno_after_send := 25
    stdout_flush_count := 0
    file_flush_count := 0 }

/-- A source file path. -/
def sampleFile : List Char := "src/main.cpp".toList

/-- A platform on which `fopen` succeeds. -/
def sampleFileEnv : FileEnv :=
  { fopen_ok := true, errno_after_fclose := 0, errno_after_fopen := 0 }

/-! ## The stream buffer -/

theorem take_succ_set (ch : Char) : ∀ (buf : List Char) (p : Nat), p < buf.length →
    (buf.set p ch).take (p + 1) = buf.take p ++ [ch] := by
  intro buf
  induction buf with
  | nil => intro p h; simp at h
  | cons x xs ih =>
    intro p h
    cases p with
    | zero => simp
    | succ p =>
      have h1 : p < xs.length := by simpa using h
      simp [ih p h1]

theorem sputc_room (buf : List Char) (sb : LogStreamBuf) (ch : Char) (h : sb.pptr < sb.epptr) :
    sputc buf sb ch = (buf.set sb.pptr ch, ⟨sb.pptr + 1, sb.epptr⟩, some ch) := by
  simp [sputc, h]

theorem sputc_full (buf : List Char) (sb : LogStreamBuf) (ch : Char) (h : ¬ sb.pptr < sb.epptr) :
    sputc buf sb ch = (buf, sb, some ch) := by
  simp [sputc, h, LogStreamBuf.overflow]

theorem xsputn_full (s : List Char) (buf : List Char) (sb : LogStreamBuf)
    (h : ¬ sb.pptr < sb.epptr) : xsputn buf sb s = (buf, sb, s.length) := by
  induction s with
  | nil => rfl
  | cons ch s ih => simp [xsputn, sputc_full buf sb ch h, ih]

/-- The buffer, cursor and count `xsputn` returns, in closed form. -/
theorem xsputn_spec (s : List Char) : ∀ (buf : List Char) (sb : LogStreamBuf),
    sb.pptr ≤ sb.epptr → sb.epptr ≤ buf.length →
    xsputn buf sb s =
      (buf.take sb.pptr ++ s.take (sb.epptr - sb.pptr)
          ++ buf.drop (min (sb.pptr + s.length) sb.epptr),
        ⟨min (sb.pptr + s.length) sb.epptr, sb.epptr⟩, s.length) := by
  induction s with
  | nil =>
    intro buf sb h1 _
    simp [xsputn, Nat.min_eq_left h1]
  | cons ch s ih =>
    intro buf sb h1 h2
    by_cases hlt : sb.pptr < sb.epptr
    · have e1 : sb.epptr - sb.pptr = (sb.epptr - (sb.pptr + 1)) + 1 := by omega
      have e2 : min (sb.pptr + (s.length + 1)) sb.epptr
          = min (sb.pptr + 1 + s.length) sb.epptr := by omega
      have hlen : sb.pptr < buf.length := by omega
      have e3 : sb.pptr < min (sb.pptr + 1 + s.length) sb.epptr := by omega
      simp only [xsputn, sputc_room buf sb ch hlt]
      rw [ih (buf.set sb.pptr ch) ⟨sb.pptr + 1, sb.epptr⟩ (by simpa using hlt)
        (by simpa using h2)]
      simp only [List.length_cons, e2]
      rw [e1, List.take_succ_cons, List.drop_set_of_lt _ _ e3, take_succ_set ch buf _ hlen]
      simp
    · rw [xsputn_full _ _ _ hlt]
      have e : sb.pptr = sb.epptr := by omega
      cases sb with
      | mk p q =>
        simp only at e
        subst e
        simp

end wn
namespace wn

theorem put_eq (d : LogMessageData) (s : List Char) (hb : d.stream_.badbit = false) :
    d.put s = { d with
      message_text_ := (xsputn d.message_text_ d.stream_.streambuf_ (padField d.stream_ s)).1
      stream_ := { d.stream_ with
        streambuf_ := (xsputn d.message_text_ d.stream_.streambuf_ (padField d.stream_ s)).2.1
        width := 0
        badbit := decide ((xsputn d.message_text_ d.stream_.streambuf_
          (padField d.stream_ s)).2.2 ≠ (padField d.stream_ s).length) } } := by
  simp [LogMessageData.put, ostream_insert, hb]

theorem Holds_insert (d : LogMessageData) (t s : List Char)
    (h1 : d.message_text_.length = kMaxLogMessageLen + 1)
    (h2 : d.stream_.streambuf_.epptr = kMaxLogMessageLen - 2)
    (h3 : d.stream_.streambuf_.pptr = min t.length (kMaxLogMessageLen - 2))
    (h4 : d.message_text_.take d.stream_.streambuf_.pptr = t.take (kMaxLogMessageLen - 2))
    (h5 : d.stream_.badbit = false) :
    Holds (d.put s) (t ++ padField d.stream_ s) := by
  have hk : kMaxLogMessageLen = 2048 := rfl
  have hle : d.stream_.streambuf_.pptr ≤ d.stream_.streambuf_.epptr := by omega
  have hcap : d.stream_.streambuf_.epptr ≤ d.message_text_.length := by omega
  rw [put_eq d s h5, xsputn_spec _ _ _ hle hcap]
  refine ⟨?_, ?_, ?_, ?_, ?_, ?_⟩
  · simp only [List.length_append, List.length_take, List.length_drop]
    omega
  · exact h2
  · simp only [List.length_append]
    omega
  · simp only
    rw [@List.take_append_eq_append_take _ t, ← h4]
    have e : kMaxLogMessageLen - 2 - t.length
        = d.stream_.streambuf_.epptr - d.stream_.streambuf_.pptr := by omega
    rw [e]
    apply List.take_left'
    simp only [List.length_append, List.length_take]
    omega
  · simp
  · rfl

theorem Holds_put {d : LogMessageData} {t : List Char} (s : List Char) (h : Holds d t) :
    Holds (d.put s) (t ++ s) := by
  obtain ⟨h1, h2, h3, h4, h5, h6⟩ := h
  have := Holds_insert d t s h1 h2 h3 h4 h5
  simpa [padField, h6] using this

theorem Holds_setw_put {d : LogMessageData} {t : List Char} (n : Nat) (s : List Char)
    (h : Holds d t) : Holds ((d.setw n).put s) (t ++ padTo n d.stream_.fill s) := by
  obtain ⟨h1, h2, h3, h4, h5, _⟩ := h
  exact Holds_insert (d.setw n) t s h1 h2 h3 h4 h5

theorem Holds_setfill {d : LogMessageData} {t : List Char} (c : Char) (h : Holds d t) :
    Holds (d.setfill c) t := h

theorem put_fill (d : LogMessageData) (s : List Char) :
    (d.put s).stream_.fill = d.stream_.fill := by
  unfold LogMessageData.put ostream_insert
  split <;> rfl

theorem setw_fill (d : LogMessageData) (n : Nat) :
    (d.setw n).stream_.fill = d.stream_.fill := rfl

theorem setfill_fill (d : LogMessageData) (c : Char) :
    (d.setfill c).stream_.fill = c := rfl

theorem put_basename_ (d : LogMessageData) (s : List Char) :
    (d.put s).basename_ = d.basename_ := rfl

theorem put_functionname_ (d : LogMessageData) (s : List Char) :
    (d.put s).functionname_ = d.functionname_ := rfl

theorem put_line_ (d : LogMessageData) (s : List Char) :
    (d.put s).line_ = d.line_ := rfl

theorem setw_basename_ (d : LogMessageData) (n : Nat) :
    (d.setw n).basename_ = d.basename_ := rfl

theorem setfill_basename_ (d : LogMessageData) (c : Char) :
    (d.setfill c).basename_ = d.basename_ := rfl

theorem setw_functionname_ (d : LogMessageData) (n : Nat) :
    (d.setw n).functionname_ = d.functionname_ := rfl

theorem setfill_functionname_ (d : LogMessageData) (c : Char) :
    (d.setfill c).functionname_ = d.functionname_ := rfl

theorem setw_line_ (d : LogMessageData) (n : Nat) :
    (d.setw n).line_ = d.line_ := rfl

theorem setfill_line_ (d : LogMessageData) (c : Char) :
    (d.setfill c).line_ = d.line_ := rfl

theorem Holds_new (uninit : List Char) (c : Char) :
    Holds { LogMessageData.new uninit with
      stream_ := { LogStream.new kMaxLogMessageLen with fill := c } } [] := by
  refine ⟨?_, rfl, rfl, ?_, rfl, rfl⟩
  · simp [LogMessageData.new]
  · simp [LogStream.new, LogStreamBuf.mk_setp]

theorem Holds_InitDateTime (env : Env) (severity : Int) {d : LogMessageData} {t : List Char}
    (h : Holds d t) (hf : d.stream_.fill = '0') :
    Holds (InitDateTime env severity d) (t ++ dateTimeText env severity) ∧
      (InitDateTime env severity d).stream_.fill = '0' := by
  constructor
  · have a1 := Holds_put (GetLogSeverityName severity) (Holds_put ['['] h)
    have a2 := Holds_setw_put 2 (fmtInt (1 + env.tm_time.tm_mon)) (Holds_put [' '] a1)
    have a3 := Holds_setw_put 2 (fmtInt env.tm_time.tm_mday) (Holds_put ['/'] a2)
    have a4 := Holds_setw_put 2 (fmtInt env.tm_time.tm_hour) (Holds_put [' '] a3)
    have a5 := Holds_setw_put 2 (fmtInt env.tm_time.tm_min) (Holds_put [':'] a4)
    have a6 := Holds_setw_put 2 (fmtInt env.tm_time.tm_sec) (Holds_put [':'] a5)
    have a7 := Holds_setw_put 3 (fmtInt (Int.tdiv env.tv_usec 1000)) (Holds_put ['.'] a6)
    have a8 := Holds_put (fmtInt env.now) (Holds_put [' '] a7)
    simp only [put_fill, setw_fill, hf, List.append_assoc] at a8
    simp only [dateTimeText, List.append_assoc]
    exact a8
  · simp [InitDateTime, put_fill, setw_fill, hf]

theorem Holds_InitLocation (env : Env) {d : LogMessageData} {t : List Char}
    (h : Holds d t) :
    Holds (InitLocation env d)
      (t ++ ([' '] ++ padTo 5 ' ' env.thread_id ++ [' '] ++ d.basename_
        ++ (if d.functionname_ ≠ [] then [' '] ++ d.functionname_ else [])
        ++ [':'] ++ fmtInt d.line_ ++ [']', ' '])) := by
  have a1 := Holds_setw_put 5 env.thread_id (Holds_setfill ' ' (Holds_put [' '] h))
  have a2 := Holds_put d.basename_ (Holds_put [' '] a1)
  by_cases hfn : d.functionname_ = []
  · have a3 := Holds_put [']', ' '] (Holds_put (fmtInt d.line_) (Holds_put [':'] a2))
    simp only [List.append_assoc, setfill_fill] at a3
    simp only [InitLocation, hfn, List.append_assoc, put_basename_, put_functionname_,
      put_line_, setw_basename_, setfill_basename_, setw_functionname_,
      setfill_functionname_, setw_line_, setfill_line_, ne_eq, not_true_eq_false,
      if_false, List.nil_append]
    exact a3
  · have a3 := Holds_put [']', ' '] (Holds_put (fmtInt d.line_) (Holds_put [':']
      (Holds_put d.functionname_ (Holds_put [' '] a2))))
    simp only [List.append_assoc, setfill_fill] at a3
    simp only [InitLocation, hfn, List.append_assoc, put_basename_, put_functionname_,
      put_line_, setw_basename_, setfill_basename_, setw_functionname_,
      setfill_functionname_, setw_line_, setfill_line_, ne_eq, not_false_eq_true,
      if_true]
    exact a3

theorem InitDateTime_preserved_errno_ (env : Env) (severity : Int) (d : LogMessageData) :
    (InitDateTime env severity d).preserved_errno_ = d.preserved_errno_ := by
  simp only [InitDateTime, LogMessageData.put, LogMessageData.setw]

theorem InitDateTime_severity_ (env : Env) (severity : Int) (d : LogMessageData) :
    (InitDateTime env severity d).severity_ = d.severity_ := by
  simp only [InitDateTime, LogMessageData.put, LogMessageData.setw]

theorem InitDateTime_line_ (env : Env) (severity : Int) (d : LogMessageData) :
    (InitDateTime env severity d).line_ = d.line_ := by
  simp only [InitDateTime, LogMessageData.put, LogMessageData.setw]

theorem InitDateTime_send_method_ (env : Env) (severity : Int) (d : LogMessageData) :
    (InitDateTime env severity d).send_method_ = d.send_method_ := by
  simp only [InitDateTime, LogMessageData.put, LogMessageData.setw]

theorem InitDateTime_basename_ (env : Env) (severity : Int) (d : LogMessageData) :
    (InitDateTime env severity d).basename_ = d.basename_ := by
  simp only [InitDateTime, LogMessageData.put, LogMessageData.setw]

theorem InitDateTime_functionname_ (env : Env) (severity : Int) (d : LogMessageData) :
    (InitDateTime env severity d).functionname_ = d.functionname_ := by
  simp only [InitDateTime, LogMessageData.put, LogMessageData.setw]

theorem InitDateTime_has_been_flushed_ (env : Env) (severity : Int) (d : LogMessageData) :
    (InitDateTime env severity d).has_been_flushed_ = d.has_been_flushed_ := by
  simp only [InitDateTime, LogMessageData.put, LogMessageData.setw]

theorem InitLocation_preserved_errno_ (env : Env) (d : LogMessageData) :
    (InitLocation env d).preserved_errno_ = d.preserved_errno_ := by
  simp only [InitLocation, LogMessageData.put, LogMessageData.setw, LogMessageData.setfill]
  split <;> rfl

theorem InitLocation_severity_ (env : Env) (d : LogMessageData) :
    (InitLocation env d).severity_ = d.severity_ := by
  simp only [InitLocation, LogMessageData.put, LogMessageData.setw, LogMessageData.setfill]
  split <;> rfl

theorem InitLocation_line_ (env : Env) (d : LogMessageData) :
    (InitLocation env d).line_ = d.line_ := by
  simp only [InitLocation, LogMessageData.put, LogMessageData.setw, LogMessageData.setfill]
  split <;> rfl

theorem InitLocation_send_method_ (env : Env) (d : LogMessageData) :
    (InitLocation env d).send_method_ = d.send_method_ := by
  simp only [InitLocation, LogMessageData.put, LogMessageData.setw, LogMessageData.setfill]

theorem InitLocation_basename_ (env : Env) (d : LogMessageData) :
    (InitLocation env d).basename_ = d.basename_ := by
  simp only [InitLocation, LogMessageData.put, LogMessageData.setw, LogMessageData.setfill]
  split <;> rfl

theorem InitLocation_functionname_ (env : Env) (d : LogMessageData) :
    (InitLocation env d).functionname_ = d.functionname_ := by
  simp only [InitLocation, LogMessageData.put, LogMessageData.setw, LogMessageData.setfill]
  split <;> rfl

theorem InitLocation_has_been_flushed_ (env : Env) (d : LogMessageData) :
    (InitLocation env d).has_been_flushed_ = d.has_been_flushed_ := by
  simp only [InitLocation, LogMessageData.put, LogMessageData.setw, LogMessageData.setfill]
  split <;> rfl

/-- The record `Init` returns holds the first bytes of `prefixText`. -/
theorem Holds_Init (env : Env) (w : World) (file function : List Char) (line severity : Int)
    (sm : SendMethod) :
    Holds (Init env w file function line severity sm).1
      (prefixText env file function line severity) := by
  have h0 : Holds (InitFields env w file function line severity sm) [] :=
    Holds_new env.uninit '0'
  have h1 := Holds_InitDateTime env severity h0 rfl
  have h2 := Holds_InitLocation env h1.1
  simp only [InitDateTime_basename_, InitDateTime_functionname_, InitDateTime_line_,
    List.nil_append] at h2
  exact h2

theorem Init_fields (env : Env) (w : World) (file function : List Char) (line severity : Int)
    (sm : SendMethod) :
    (Init env w file function line severity sm).1.severity_ = toSignedChar severity ∧
    (Init env w file function line severity sm).1.preserved_errno_ = w.errno ∧
    (Init env w file function line severity sm).1.has_been_flushed_ = false ∧
    (Init env w file function line severity sm).1.send_method_ = sm ∧
    (Init env w file function line severity sm).1.num_prefix_chars_
      = (Init env w file function line severity sm).1.stream_.pcount ∧
    (Init env w file function line severity sm).2 = { w with errno := env.errno_after_init } := by
  refine ⟨?_, ?_, ?_, ?_, rfl, rfl⟩
  · show (InitLocation env _).severity_ = _
    rw [InitLocation_severity_, InitDateTime_severity_]; rfl
  · show (InitLocation env _).preserved_errno_ = _
    rw [InitLocation_preserved_errno_, InitDateTime_preserved_errno_]; rfl
  · show (InitLocation env _).has_been_flushed_ = _
    rw [InitLocation_has_been_flushed_, InitDateTime_has_been_flushed_]; rfl
  · show (InitLocation env _).send_method_ = _
    rw [InitLocation_send_method_, InitDateTime_send_method_]

theorem size_t_sub_of_le (a b : Nat) (h : b ≤ a) (ha : a < 2 ^ 64) : size_t_sub a b = a - b := by
  unfold size_t_sub
  omega

theorem size_t_succ_of_lt (a : Nat) (ha : a + 1 < 2 ^ 64) : size_t_succ a = a + 1 := by
  unfold size_t_succ
  omega

theorem set_of_getElem? (c : Char) : ∀ (l : List Char) (n : Nat), l[n]? = some c →
    l.set n c = l := by
  intro l
  induction l with
  | nil => intro n h; simp at h
  | cons x xs ih =>
    intro n h
    cases n with
    | zero =>
      have e : x = c := by simpa using h
      simp [e]
    | succ n =>
      have h1 : xs[n]? = some c := by simpa using h
      simp [ih n h1]

theorem withNewline_length (st : List Char) :
    (withNewline st).length = if st.getLast? = some '\n' then st.length else st.length + 1 := by
  unfold withNewline
  split <;> simp

/-- What `Flush` returns once past its guard, for a record whose buffer holds
the first bytes of a non-empty text. -/
theorem Flush_eq (env : Env) (d : LogMessageData) (w : World) (t : List Char)
    (h : Holds d t) (ht : t ≠ []) (hp : d.num_prefix_chars_ ≤ d.stream_.pcount)
    (hf : d.has_been_flushed_ = false) (hs : w.FLAGS_minlogSeverity ≤ d.severity_) :
    Flush env d w = some
      ({ d with
          num_chars_to_log_ := (withNewline (t.take (kMaxLogMessageLen - 2))).length
          num_chars_to_syslog_ := d.stream_.pcount - d.num_prefix_chars_
          has_been_flushed_ := true },
        flushedWorld env w d.preserved_errno_ d.severity_ d.num_prefix_chars_
          (t.take (kMaxLogMessageLen - 2))) := by
  obtain ⟨h1, h2, h3, h4, h5, h6⟩ := h
  have hk : kMaxLogMessageLen = 2048 := rfl
  have htl : 1 ≤ t.length := List.length_pos.mpr ht
  have hn : d.stream_.pcount = d.stream_.streambuf_.pptr := rfl
  generalize hst : t.take (kMaxLogMessageLen - 2) = st at *
  have hstl : st.length = d.stream_.streambuf_.pptr := by
    rw [← hst, List.length_take]; omega
  have hn1 : 1 ≤ d.stream_.streambuf_.pptr := by omega
  have hn2 : d.stream_.streambuf_.pptr ≤ 2046 := by omega
  have hlast : d.message_text_[d.stream_.streambuf_.pptr - 1]? = st.getLast? := by
    rw [List.getLast?_eq_getElem?, hstl, ← h4, List.getElem?_take_of_lt (by omega)]
  have hsub1 : size_t_sub d.stream_.streambuf_.pptr 1 = d.stream_.streambuf_.pptr - 1 :=
    size_t_sub_of_le _ _ hn1 (by omega)
  have hsubp : size_t_sub d.stream_.streambuf_.pptr d.num_prefix_chars_
      = d.stream_.streambuf_.pptr - d.num_prefix_chars_ :=
    size_t_sub_of_le _ _ hp (by omega)
  obtain ⟨c, hc⟩ : ∃ c, d.message_text_[d.stream_.streambuf_.pptr - 1]? = some c :=
    ⟨_, List.getElem?_eq_getElem (by omega)⟩
  obtain ⟨c2, hc2⟩ : ∃ c, d.message_text_[d.stream_.streambuf_.pptr]? = some c :=
    ⟨_, List.getElem?_eq_getElem (by omega)⟩
  have hguard : ¬ (d.has_been_flushed_ = true ∨ d.severity_ < w.FLAGS_minlogSeverity) := by
    simp [hf, hs]
  unfold Flush
  rw [if_neg hguard]
  simp only [LogStream.pcount, LogStreamBuf.pcount, hsub1, hsubp, hc, Option.bind_eq_bind,
    Option.some_bind]
  rw [hc] at hlast
  by_cases hnl : c = '\n'
  · have hw : withNewline st = st := by
      unfold withNewline
      rw [if_pos]
      rw [← hlast, hnl]
    simp only [hnl, bne_self_eq_false, Bool.false_eq_true, if_false, Option.some_bind,
      SendToLog, hsubp, flushedWorld, dispatchedWorld, hw, hstl, h4]
    have e1 : (d.stream_.streambuf_.pptr - d.num_prefix_chars_ > 1)
        ↔ d.stream_.streambuf_.pptr > d.num_prefix_chars_ + 1 := by omega
    have e2 : d.stream_.streambuf_.pptr ≤ d.message_text_.length := by omega
    by_cases hwr : d.stream_.streambuf_.pptr > d.num_prefix_chars_ + 1 <;>
      simp [e1, e2, hwr]
  · have hw : withNewline st = st ++ ['\n'] := by
      unfold withNewline
      rw [if_neg]
      rw [← hlast]
      simpa using hnl
    have hsucc : size_t_succ d.stream_.streambuf_.pptr = d.stream_.streambuf_.pptr + 1 :=
      size_t_succ_of_lt _ (by omega)
    have hsub1' : size_t_sub (d.stream_.streambuf_.pptr + 1) 1 = d.stream_.streambuf_.pptr :=
      by rw [size_t_sub_of_le _ _ (by omega) (by omega)]; omega
    have hsubp' : size_t_sub (d.stream_.streambuf_.pptr + 1) d.num_prefix_chars_
        = d.stream_.streambuf_.pptr + 1 - d.num_prefix_chars_ :=
      size_t_sub_of_le _ _ (by omega) (by omega)
    have htk : (d.message_text_.set d.stream_.streambuf_.pptr '\n').take
        (d.stream_.streambuf_.pptr + 1) = st ++ ['\n'] := by
      rw [take_succ_set _ _ _ (by omega), h4]
    have hbne : (c != '\n') = true := by
      simpa using hnl
    have hset : d.message_text_.set d.stream_.streambuf_.pptr c2 = d.message_text_ :=
      set_of_getElem? _ _ _ hc2
    simp only [hbne, if_true, hc2, Option.some_bind, SendToLog, hsucc, hsub1', hsubp',
      flushedWorld, dispatchedWorld, hw, htk, List.length_append, hstl, List.length_set,
      List.set_set, hset]
    have e1 : (d.stream_.streambuf_.pptr + 1 - d.num_prefix_chars_ > 1)
        ↔ d.stream_.streambuf_.pptr + 1 > d.num_prefix_chars_ + 1 := by omega
    have e2 : d.stream_.streambuf_.pptr + 1 ≤ d.message_text_.length := by omega
    have e3 : d.stream_.streambuf_.pptr < d.message_text_.length := by omega
    by_cases hwr : d.stream_.streambuf_.pptr + 1 > d.num_prefix_chars_ + 1 <;>
      simp [e1, e2, e3, hwr]

theorem prefixText_ne_nil (env : Env) (file function : List Char) (line severity : Int) :
    prefixText env file function line severity ≠ [] := by
  simp [prefixText, dateTimeText]

/-- The facts about the record of a logging statement that `Flush` relies on. -/
theorem record_facts (env : Env) (w : World) (file function : List Char) (line severity : Int)
    (c : List Char) :
    Holds (record env w file function line severity c).1
      (prefixText env file function line severity ++ c) ∧
    (record env w file function line severity c).1.severity_ = toSignedChar severity ∧
    (record env w file function line severity c).1.preserved_errno_ = w.errno ∧
    (record env w file function line severity c).1.has_been_flushed_ = false ∧
    (record env w file function line severity c).1.num_prefix_chars_
      = min (prefixText env file function line severity).length (kMaxLogMessageLen - 2) ∧
    (record env w file function line severity c).2
      = { w with errno := env.errno_after_stream } := by
  have hI := Holds_Init env w file function line severity SendMethod.SendToLog
  obtain ⟨f1, f2, f3, _, f5, f6⟩ :=
    Init_fields env w file function line severity SendMethod.SendToLog
  refine ⟨Holds_put c hI, f1, f2, f3, ?_, ?_⟩
  · show (Init env w file function line severity SendMethod.SendToLog).1.num_prefix_chars_ = _
    rw [f5]
    exact hI.2.2.1
  · show ({ (Init env w file function line severity SendMethod.SendToLog).2 with
      errno := env.errno_after_stream } : World) = _
    rw [f6]

theorem record_num_prefix_le (env : Env) (w : World) (file function : List Char)
    (line severity : Int) (c : List Char) :
    (record env w file function line severity c).1.num_prefix_chars_
      ≤ (record env w file function line severity c).1.stream_.pcount := by
  obtain ⟨h, _, _, _, h5, _⟩ := record_facts env w file function line severity c
  rw [h5]
  show _ ≤ (record env w file function line severity c).1.stream_.streambuf_.pptr
  rw [h.2.2.1, List.length_append]
  omega

theorem record_stored (env : Env) (w : World) (file function : List Char)
    (line severity : Int) (c : List Char) :
    (record env w file function line severity c).1.stored
      = (prefixText env file function line severity ++ c).take (kMaxLogMessageLen - 2) :=
  (record_facts env w file function line severity c).1.2.2.2.1

theorem record_prefixBytes (env : Env) (w : World) (file function : List Char)
    (line severity : Int) (c : List Char) :
    (record env w file function line severity c).1.prefixBytes
      = (prefixText env file function line severity).take (kMaxLogMessageLen - 2) := by
  obtain ⟨h, _, _, _, h5, _⟩ := record_facts env w file function line severity c
  have hle := record_num_prefix_le env w file function line severity c
  have hst := record_stored env w file function line severity c
  unfold LogMessageData.prefixBytes
  unfold LogMessageData.stored at hst
  have e : (record env w file function line severity c).1.message_text_.take
      (record env w file function line severity c).1.num_prefix_chars_
      = ((record env w file function line severity c).1.message_text_.take
          (record env w file function line severity c).1.stream_.pcount).take
        (record env w file function line severity c).1.num_prefix_chars_ := by
    rw [List.take_take, Nat.min_eq_left hle]
  rw [e, hst, h5, List.take_take, List.take_append_eq_append_take]
  have hk : kMaxLogMessageLen = 2048 := rfl
  by_cases hl : (prefixText env file function line severity).length ≤ kMaxLogMessageLen - 2
  · have e1 : min (min (prefixText env file function line severity).length
        (kMaxLogMessageLen - 2)) (kMaxLogMessageLen - 2)
        = (prefixText env file function line severity).length := by omega
    rw [e1]
    simp [List.take_of_length_le hl]
  · have e1 : min (min (prefixText env file function line severity).length
        (kMaxLogMessageLen - 2)) (kMaxLogMessageLen - 2) = kMaxLogMessageLen - 2 := by omega
    rw [e1]
    have e2 : kMaxLogMessageLen - 2 - (prefixText env file function line severity).length = 0 := by
      omega
    rw [e2]
    simp

/-- The first flush of the record of a logging statement at or above the
threshold. -/
theorem Flush_record (env envf : Env) (w wf : World) (file function : List Char)
    (line severity : Int) (c : List Char)
    (hs : wf.FLAGS_minlogSeverity ≤ toSignedChar severity) :
    Flush envf (record env w file function line severity c).1 wf = some
      ({ (record env w file function line severity c).1 with
          num_chars_to_log_ :=
            (withNewline (record env w file function line severity c).1.stored).length
          num_chars_to_syslog_ :=
            (record env w file function line severity c).1.stream_.pcount
              - (record env w file function line severity c).1.num_prefix_chars_
          has_been_flushed_ := true },
        flushedWorld envf wf (record env w file function line severity c).1.preserved_errno_
          (record env w file function line severity c).1.severity_
          (record env w file function line severity c).1.num_prefix_chars_
          (record env w file function line severity c).1.stored) := by
  obtain ⟨h, h2, h3, h4, _, _⟩ := record_facts env w file function line severity c
  have hle := record_num_prefix_le env w file function line severity c
  have hne : prefixText env file function line severity ++ c ≠ [] := by
    simp [prefixText_ne_nil]
  have := Flush_eq envf _ wf _ h hne hle h4 (by rw [h2]; exact hs)
  rw [this, record_stored]

/-- A flush request on a record that is flushed already, or whose severity
is below the threshold, changes nothing. -/
theorem Flush_guard (envf : Env) (d : LogMessageData) (wf : World)
    (h : d.has_been_flushed_ = true ∨ d.severity_ < wf.FLAGS_minlogSeverity) :
    Flush envf d wf = some (d, wf) := by
  unfold Flush
  rw [if_pos h]

theorem flushedWorld_cout (envf : Env) (wf : World) (e sev : Int) (p : Nat) (st : List Char) :
    (flushedWorld envf wf e sev p st).cout
      = if (withNewline st).length > p + 1 then wf.cout ++ [withNewline st] else wf.cout := by
  unfold flushedWorld dispatchedWorld sinkWrite abort
  split_ifs <;> rfl

theorem flushedWorld_disk (envf : Env) (wf : World) (e sev : Int) (p : Nat) (st : List Char) :
    (flushedWorld envf wf e sev p st).disk
      = if (withNewline st).length > p + 1 then (sinkWrite envf wf (withNewline st)).disk
        else wf.disk := by
  unfold flushedWorld dispatchedWorld sinkWrite abort
  split_ifs <;> rfl

theorem flushedWorld_aborted (envf : Env) (wf : World) (e sev : Int) (p : Nat)
    (st : List Char) :
    (flushedWorld envf wf e sev p st).aborted
      = if sev = LogSeverity_FATAL then true else wf.aborted := by
  unfold flushedWorld dispatchedWorld sinkWrite abort
  split_ifs <;> rfl

theorem flushedWorld_errno (envf : Env) (wf : World) (e sev : Int) (p : Nat)
    (st : List Char) (he : e ≠ 0) :
    (flushedWorld envf wf e sev p st).errno = e := by
  unfold flushedWorld dispatchedWorld sinkWrite abort
  split_ifs <;> rfl

theorem flushedWorld_FLAGS (envf : Env) (wf : World) (e sev : Int) (p : Nat)
    (st : List Char) :
    (flushedWorld envf wf e sev p st).FLAGS_minlogSeverity = wf.FLAGS_minlogSeverity := by
  unfold flushedWorld dispatchedWorld sinkWrite abort
  split_ifs <;> rfl

theorem FlushAll_fixed (envs : List Env) (d : LogMessageData) (w : World)
    (h : ∀ e, Flush e d w = some (d, w)) : FlushAll envs d w = some (d, w) := by
  induction envs with
  | nil => rfl
  | cons e envs ih =>
    simp only [FlushAll, h e]
    split
    · rfl
    · exact ih

/-- C1: for the record of any logging statement and any sequence of one or
more flush requests on it, the sequence leaves the record and the world as
the first request leaves them, the sink receives no write or exactly one
(console and log file alike), and a flush request on a record whose
`has_been_flushed_` is set changes nothing. -/
theorem C1_flush_at_most_once (env envf : Env) (envs : List Env) (w wf : World)
    (file function : List Char) (line severity : Int) (c : List Char) :
    ∃ d' w', Flush envf (record env w file function line severity c).1 wf = some (d', w') ∧
      FlushAll (envf :: envs) (record env w file function line severity c).1 wf
        = some (d', w') ∧
      ((w'.cout = wf.cout ∧ w'.disk = wf.disk) ∨
        ∃ bytes, w'.cout = wf.cout ++ [bytes] ∧ w'.disk = (sinkWrite envf wf bytes).disk) ∧
      (∀ (e : Env) (d : LogMessageData) (v : World),
        d.has_been_flushed_ = true → Flush e d v = some (d, v)) := by
  have hno : ∀ (e : Env) (d : LogMessageData) (v : World),
      d.has_been_flushed_ = true → Flush e d v = some (d, v) :=
    fun e d v h => Flush_guard e d v (Or.inl h)
  obtain ⟨_, h2, _, _, _, _⟩ := record_facts env w file function line severity c
  by_cases hs : wf.FLAGS_minlogSeverity ≤ toSignedChar severity
  · have hF := Flush_record env envf w wf file function line severity c hs
    refine ⟨_, _, hF, ?_, ?_, hno⟩
    · simp only [FlushAll, hF]
      split
      · rfl
      · exact FlushAll_fixed envs _ _ (fun e => hno e _ _ rfl)
    · rw [flushedWorld_cout, flushedWorld_disk]
      split
      · exact Or.inr ⟨_, rfl, rfl⟩
      · exact Or.inl ⟨rfl, rfl⟩
  · have hlt : (record env w file function line severity c).1.severity_
        < wf.FLAGS_minlogSeverity := by
      rw [h2]; omega
    have hF : ∀ e, Flush e (record env w file function line severity c).1 wf
        = some ((record env w file function line severity c).1, wf) :=
      fun e => Flush_guard e _ wf (Or.inr hlt)
    refine ⟨_, _, hF envf, ?_, Or.inl ⟨rfl, rfl⟩, hno⟩
    simp only [FlushAll, hF envf]
    split
    · rfl
    · exact FlushAll_fixed envs _ _ hF

/-- A concrete instance of C1: `LOG(INFO) << "hello!"` flushed three times. -/
theorem C1_flush_at_most_once_witness :
    ∃ d' w', Flush sampleEnv (record sampleEnv World.start sampleFile [] 8 LogSeverity_INFO
        "hello!".toList).1 World.start = some (d', w') ∧
      FlushAll (sampleEnv :: [sampleEnv, sampleEnv])
        (record sampleEnv World.start sampleFile [] 8 LogSeverity_INFO "hello!".toList).1
        World.start = some (d', w') ∧
      ((w'.cout = World.start.cout ∧ w'.disk = World.start.disk) ∨
        ∃ bytes, w'.cout = World.start.cout ++ [bytes] ∧
          w'.disk = (sinkWrite sampleEnv World.start bytes).disk) ∧
      (∀ (e : Env) (d : LogMessageData) (v : World),
        d.has_been_flushed_ = true → Flush e d v = some (d, v)) :=
  C1_flush_at_most_once sampleEnv sampleEnv [sampleEnv, sampleEnv] World.start World.start
    sampleFile [] 8 LogSeverity_INFO "hello!".toList

theorem getLast?_append_ne_nil (l c : List Char) (hc : c ≠ []) :
    (l ++ c).getLast? = c.getLast? := by
  rw [List.getLast?_append]
  cases h : c.getLast? with
  | none => exact absurd (List.getLast?_eq_none_iff.mp h) hc
  | some x => rfl

theorem length_ge_two_of_getLast? (c : List Char) (x : Char) (h : c.getLast? = some x)
    (hne : c ≠ [x]) : 2 ≤ c.length := by
  obtain ⟨ys, rfl⟩ := List.getLast?_eq_some_iff.mp h
  cases ys with
  | nil => exact absurd rfl hne
  | cons y ys => simp

theorem withNewline_eq (st : List Char) :
    withNewline st = st ++ (if st.getLast? = some '\n' then [] else ['\n']) := by
  unfold withNewline
  split <;> simp

theorem Init_prefixBytes (env : Env) (w : World) (file function : List Char)
    (line severity : Int) :
    (LogMessage_ctor env w file function line severity).1.prefixBytes
      = (prefixText env file function line severity).take (kMaxLogMessageLen - 2) := by
  have hI := Holds_Init env w file function line severity SendMethod.SendToLog
  exact hI.2.2.2.1

theorem Init_prefixBytes_length (env : Env) (w : World) (file function : List Char)
    (line severity : Int) :
    (LogMessage_ctor env w file function line severity).1.prefixBytes.length
      = min (prefixText env file function line severity).length (kMaxLogMessageLen - 2) := by
  rw [Init_prefixBytes, List.length_take]
  omega

/-- The first flush of a record whose prefix and content fit in the buffer
and whose content is neither empty nor a lone newline writes one line. -/
theorem Flush_fits (env envf : Env) (w wf : World) (file function : List Char)
    (line severity : Int) (c : List Char)
    (hs : wf.FLAGS_minlogSeverity ≤ toSignedChar severity)
    (hc : c ≠ []) (hc1 : c ≠ ['\n'])
    (hlen : (prefixText env file function line severity).length + c.length
      ≤ kMaxLogMessageLen - 2) :
    ∃ d' w', Flush envf (record env w file function line severity c).1 wf = some (d', w') ∧
      d'.has_been_flushed_ = true ∧
      w'.aborted = (if toSignedChar severity = LogSeverity_FATAL then true else wf.aborted) ∧
      w'.cout = wf.cout ++ [prefixText env file function line severity ++ c
        ++ (if c.getLast? = some '\n' then [] else ['\n'])] ∧
      w'.disk = (sinkWrite envf wf (prefixText env file function line severity ++ c
        ++ (if c.getLast? = some '\n' then [] else ['\n']))).disk := by
  obtain ⟨_, h2, _, _, h5, _⟩ := record_facts env w file function line severity c
  have hF := Flush_record env envf w wf file function line severity c hs
  have hst := record_stored env w file function line severity c
  rw [List.take_of_length_le (by rw [List.length_append]; exact hlen)] at hst
  have hwn : withNewline (prefixText env file function line severity ++ c)
      = prefixText env file function line severity ++ c
        ++ (if c.getLast? = some '\n' then [] else ['\n']) := by
    rw [withNewline_eq, getLast?_append_ne_nil _ _ hc]
  have hgt : (withNewline (prefixText env file function line severity ++ c)).length
      > (record env w file function line severity c).1.num_prefix_chars_ + 1 := by
    rw [h5, withNewline_length, getLast?_append_ne_nil _ _ hc, List.length_append]
    have hpos : 1 ≤ c.length := List.length_pos.mpr hc
    split
    · next hl =>
      have := length_ge_two_of_getLast? c '\n' hl hc1
      omega
    · omega
  refine ⟨_, _, hF, rfl, ?_, ?_, ?_⟩
  · rw [flushedWorld_aborted, h2]
  · rw [flushedWorld_cout, hst, if_pos hgt, hwn]
  · rw [flushedWorld_disk, hst, if_pos hgt, hwn]

/-- The first flush of a record whose content is a lone newline, or empty,
writes nothing. -/
theorem Flush_blank (env envf : Env) (w wf : World) (file function : List Char)
    (line severity : Int) (c : List Char)
    (hs : wf.FLAGS_minlogSeverity ≤ toSignedChar severity)
    (hc : c = [] ∨ c = ['\n']) :
    ∃ d' w', Flush envf (record env w file function line severity c).1 wf = some (d', w') ∧
      d'.has_been_flushed_ = true ∧
      w'.aborted = (if toSignedChar severity = LogSeverity_FATAL then true else wf.aborted) ∧
      w'.cout = wf.cout ∧ w'.disk = wf.disk := by
  obtain ⟨_, h2, _, _, h5, _⟩ := record_facts env w file function line severity c
  have hF := Flush_record env envf w wf file function line severity c hs
  have hst := record_stored env w file function line severity c
  have hk : kMaxLogMessageLen = 2048 := rfl
  have hle : ¬ (withNewline (record env w file function line severity c).1.stored).length
      > (record env w file function line severity c).1.num_prefix_chars_ + 1 := by
    rw [h5, withNewline_length, hst]
    rcases hc with rfl | rfl
    · simp only [List.append_nil, List.length_take]
      split <;> omega
    · by_cases hl : (prefixText env file function line severity).length + 1
          ≤ kMaxLogMessageLen - 2
      · rw [List.take_of_length_le (by rw [List.length_append]; exact hl)]
        rw [if_pos (by simp)]
        simp only [List.length_append, List.length_singleton]
        omega
      · simp only [List.length_take, List.length_append, List.length_singleton]
        split <;> omega
  refine ⟨_, _, hF, rfl, ?_, ?_, ?_⟩
  · rw [flushedWorld_aborted, h2]
  · rw [flushedWorld_cout, if_neg hle]
  · rw [flushedWorld_disk, if_neg hle]

/-- C2 (amended): for the record of a logging statement at or above the
threshold, with prefix `p`, and streamed content `c` that is not empty, is
not a lone newline, and is shorter than `capacity - 2 - length p`, the first
flush makes exactly one sink write, of `p ++ c ++ "\n"` when `c` does not end
in a newline and of `p ++ c` when it does; the log file, when one is open,
receives the same bytes. -/
theorem C2_emitted_line (env envf : Env) (w wf : World) (file function : List Char)
    (line severity : Int) (c : List Char)
    (hs : wf.FLAGS_minlogSeverity ≤ (record env w file function line severity c).1.severity_)
    (hc : c ≠ []) (hc1 : c ≠ ['\n'])
    (hlen : c.length < kMaxLogMessageLen - 2
      - (LogMessage_ctor env w file function line severity).1.prefixBytes.length) :
    ∃ d' w', Flush envf (record env w file function line severity c).1 wf = some (d', w') ∧
      w'.cout = wf.cout ++ [(LogMessage_ctor env w file function line severity).1.prefixBytes
        ++ c ++ (if c.getLast? = some '\n' then [] else ['\n'])] ∧
      w'.disk = (sinkWrite envf wf
        ((LogMessage_ctor env w file function line severity).1.prefixBytes
          ++ c ++ (if c.getLast? = some '\n' then [] else ['\n']))).disk := by
  rw [(record_facts env w file function line severity c).2.1] at hs
  rw [Init_prefixBytes_length] at hlen
  have hfit : (prefixText env file function line severity).length + c.length
      ≤ kMaxLogMessageLen - 2 := by omega
  have hp : (LogMessage_ctor env w file function line severity).1.prefixBytes
      = prefixText env file function line severity := by
    rw [Init_prefixBytes, List.take_of_length_le (by omega)]
  obtain ⟨d', w', hF, _, _, hcout, hdisk⟩ :=
    Flush_fits env envf w wf file function line severity c hs hc hc1 hfit
  exact ⟨d', w', hF, by rw [hp]; exact hcout, by rw [hp]; exact hdisk⟩

/-- A concrete instance of C2: `LOG(INFO) << "hello!"`. -/
theorem C2_emitted_line_witness :
    ∃ d' w', Flush sampleEnv (record sampleEnv World.start sampleFile [] 8 LogSeverity_INFO
        "hello!".toList).1 World.start = some (d', w') ∧
      w'.cout = World.start.cout
        ++ [(LogMessage_ctor sampleEnv World.start sampleFile [] 8 LogSeverity_INFO).1.prefixBytes
          ++ "hello!".toList
          ++ (if "hello!".toList.getLast? = some '\n' then [] else ['\n'])] ∧
      w'.disk = (sinkWrite sampleEnv World.start
        ((LogMessage_ctor sampleEnv World.start sampleFile [] 8 LogSeverity_INFO).1.prefixBytes
          ++ "hello!".toList
          ++ (if "hello!".toList.getLast? = some '\n' then [] else ['\n']))).disk :=
  C2_emitted_line sampleEnv sampleEnv World.start World.start sampleFile [] 8 LogSeverity_INFO
    "hello!".toList
    (by rw [(record_facts _ _ _ _ _ _ _).2.1]; decide)
    (by decide) (by decide)
    (by rw [Init_prefixBytes_length]; decide)

/-- C2 fails as stated: for `LOG(INFO) << "\n"` under the threshold `INFO`
the content is not empty and fits, yet the first flush writes nothing, where
the claim has one write of the prefix followed by the newline. -/
theorem C2_counterexample_lone_newline :
    World.start.FLAGS_minlogSeverity
      ≤ (record sampleEnv World.start sampleFile [] 8 LogSeverity_INFO ['\n']).1.severity_ ∧
    (['\n'] : List Char) ≠ [] ∧
    (['\n'] : List Char).length < kMaxLogMessageLen - 2
      - (LogMessage_ctor sampleEnv World.start sampleFile [] 8
          LogSeverity_INFO).1.prefixBytes.length ∧
    (Flush sampleEnv (record sampleEnv World.start sampleFile [] 8 LogSeverity_INFO
        ['\n']).1 World.start).map (fun r => r.2.cout) = some [] ∧
    (Flush sampleEnv (record sampleEnv World.start sampleFile [] 8 LogSeverity_INFO
        ['\n']).1 World.start).map (fun r => r.2.cout)
      ≠ some (World.start.cout
        ++ [(LogMessage_ctor sampleEnv World.start sampleFile [] 8
          LogSeverity_INFO).1.prefixBytes ++ ['\n']]) := by
  obtain ⟨d', w', hF, _, _, hcout, _⟩ :=
    Flush_blank sampleEnv sampleEnv World.start World.start sampleFile [] 8 LogSeverity_INFO
      ['\n'] (by decide) (Or.inr rfl)
  refine ⟨?_, by decide, ?_, ?_, ?_⟩
  · rw [(record_facts _ _ _ _ _ _ _).2.1]; decide
  · rw [Init_prefixBytes_length]; decide
  · rw [hF]; simp [hcout, World.start]
  · rw [hF]; simp [hcout, World.start]

/-- C3: for the record of a logging statement at or above the threshold, the
first flush sets `num_chars_to_log_` to the buffered length after newline
normalisation and writes that byte range to the sink exactly when this
length exceeds the prefix length by more than one; otherwise it writes
nothing, and so it does when the caller streamed nothing. -/
theorem C3_sink_write_iff (env envf : Env) (w wf : World) (file function : List Char)
    (line severity : Int) (c : List Char)
    (hs : wf.FLAGS_minlogSeverity
      ≤ (record env w file function line severity c).1.severity_) :
    ∃ d' w', Flush envf (record env w file function line severity c).1 wf = some (d', w') ∧
      d'.num_chars_to_log_
        = (withNewline (record env w file function line severity c).1.stored).length ∧
      d'.num_prefix_chars_ = (record env w file function line severity c).1.num_prefix_chars_ ∧
      (d'.num_chars_to_log_ > d'.num_prefix_chars_ + 1 →
        w'.cout = wf.cout
          ++ [withNewline (record env w file function line severity c).1.stored] ∧
        w'.disk = (sinkWrite envf wf
          (withNewline (record env w file function line severity c).1.stored)).disk) ∧
      (¬ d'.num_chars_to_log_ > d'.num_prefix_chars_ + 1 →
        w'.cout = wf.cout ∧ w'.disk = wf.disk) ∧
      (c = [] → w'.cout = wf.cout ∧ w'.disk = wf.disk) := by
  rw [(record_facts env w file function line severity c).2.1] at hs
  have hF := Flush_record env envf w wf file function line severity c hs
  refine ⟨_, _, hF, rfl, rfl, ?_, ?_, ?_⟩
  · intro h
    rw [flushedWorld_cout, flushedWorld_disk, if_pos h, if_pos h]
    exact ⟨rfl, rfl⟩
  · intro h
    rw [flushedWorld_cout, flushedWorld_disk, if_neg h, if_neg h]
    exact ⟨rfl, rfl⟩
  · intro hc
    obtain ⟨d2, w2, hF2, _, _, hcout, hdisk⟩ :=
      Flush_blank env envf w wf file function line severity c hs (Or.inl hc)
    rw [hF] at hF2
    have e := (Prod.mk.inj (Option.some.inj hF2)).2
    rw [e]
    exact ⟨hcout, hdisk⟩

/-- A concrete instance of C3: `LOG(INFO)` with nothing streamed. -/
theorem C3_sink_write_iff_witness :
    ∃ d' w', Flush sampleEnv (record sampleEnv World.start sampleFile [] 8 LogSeverity_INFO
        []).1 World.start = some (d', w') ∧
      d'.num_chars_to_log_
        = (withNewline (record sampleEnv World.start sampleFile [] 8 LogSeverity_INFO
            []).1.stored).length ∧
      d'.num_prefix_chars_
        = (record sampleEnv World.start sampleFile [] 8 LogSeverity_INFO []).1.num_prefix_chars_ ∧
      (d'.num_chars_to_log_ > d'.num_prefix_chars_ + 1 →
        w'.cout = World.start.cout
          ++ [withNewline (record sampleEnv World.start sampleFile [] 8 LogSeverity_INFO
            []).1.stored] ∧
        w'.disk = (sinkWrite sampleEnv World.start
          (withNewline (record sampleEnv World.start sampleFile [] 8 LogSeverity_INFO
            []).1.stored)).disk) ∧
      (¬ d'.num_chars_to_log_ > d'.num_prefix_chars_ + 1 →
        w'.cout = World.start.cout ∧ w'.disk = World.start.disk) ∧
      (([] : List Char) = [] → w'.cout = World.start.cout ∧ w'.disk = World.start.disk) :=
  C3_sink_write_iff sampleEnv sampleEnv World.start World.start sampleFile [] 8
    LogSeverity_INFO [] (by rw [(record_facts _ _ _ _ _ _ _).2.1]; decide)

theorem toSignedChar_of_scale (s : Int) (h1 : LogSeverity_NEVER ≤ s)
    (h2 : s ≤ LogSeverity_FATAL) : toSignedChar s = s := by
  unfold LogSeverity_NEVER at h1
  unfold LogSeverity_FATAL at h2
  unfold toSignedChar
  omega

/-- C4: for every severity `s` of the scale and every threshold, the first
flush of a record of severity `s` gets past the guard (sets the flag, fixes
the normalised length and dispatches to the sink) exactly when `s` is at or
above the threshold, and otherwise leaves record and world as they were; with
the threshold `INFO` the statement `LOG(DEBUG) << "x"` writes nothing. -/
theorem C4_threshold_filter (env envf : Env) (w wf : World) (file function : List Char)
    (line s : Int) (c : List Char)
    (h1 : LogSeverity_NEVER ≤ s) (h2 : s ≤ LogSeverity_FATAL) :
    (∃ d' w', Flush envf (record env w file function line s c).1 wf = some (d', w') ∧
      (d'.has_been_flushed_ = true ↔ wf.FLAGS_minlogSeverity ≤ s) ∧
      (wf.FLAGS_minlogSeverity ≤ s →
        d'.num_chars_to_log_
          = (withNewline (record env w file function line s c).1.stored).length ∧
        w'.cout = (if d'.num_chars_to_log_ > d'.num_prefix_chars_ + 1
          then wf.cout ++ [withNewline (record env w file function line s c).1.stored]
          else wf.cout)) ∧
      (s < wf.FLAGS_minlogSeverity →
        d' = (record env w file function line s c).1 ∧ w' = wf)) ∧
    (∀ w0 : World, w0.FLAGS_minlogSeverity = LogSeverity_INFO →
      ∃ w', logStatement env w0 file function line LogSeverity_DEBUG ['x'] = some w' ∧
        w'.cout = w0.cout ∧ w'.disk = w0.disk) := by
  obtain ⟨_, hsev, _, hfl, _, _⟩ := record_facts env w file function line s c
  rw [toSignedChar_of_scale s h1 h2] at hsev
  constructor
  · by_cases hs : wf.FLAGS_minlogSeverity ≤ s
    · have hF := Flush_record env envf w wf file function line s c
        (by rw [toSignedChar_of_scale s h1 h2]; exact hs)
      refine ⟨_, _, hF, ?_, ?_, ?_⟩
      · simp [hs]
      · intro _
        exact ⟨rfl, flushedWorld_cout _ _ _ _ _ _⟩
      · intro hlt
        omega
    · have hF := Flush_guard envf (record env w file function line s c).1 wf
        (Or.inr (by rw [hsev]; omega))
      refine ⟨_, _, hF, ?_, ?_, ?_⟩
      · simp [hs, hfl]
      · intro h
        exact absurd h hs
      · intro _
        exact ⟨rfl, rfl⟩
  · intro w0 hw0
    obtain ⟨_, hsev0, _, _, _, hw⟩ :=
      record_facts env w0 file function line LogSeverity_DEBUG ['x']
    have hF := Flush_guard env (record env w0 file function line LogSeverity_DEBUG ['x']).1
      (record env w0 file function line LogSeverity_DEBUG ['x']).2
      (Or.inr (by rw [hsev0, hw]; simp only [hw0]; decide))
    refine ⟨(record env w0 file function line LogSeverity_DEBUG ['x']).2, ?_, ?_, ?_⟩
    · simp only [logStatement, LogMessage_dtor, hF, Option.map_some']
    · rw [hw]
    · rw [hw]

/-- A concrete instance of C4: a `WARNING` record under the threshold of a
fresh process. -/
theorem C4_threshold_filter_witness :
    (∃ d' w', Flush sampleEnv (record sampleEnv World.start sampleFile [] 8 LogSeverity_WARNING
        ['x']).1 World.start = some (d', w') ∧
      (d'.has_been_flushed_ = true ↔ World.start.FLAGS_minlogSeverity ≤ LogSeverity_WARNING) ∧
      (World.start.FLAGS_minlogSeverity ≤ LogSeverity_WARNING →
        d'.num_chars_to_log_
          = (withNewline (record sampleEnv World.start sampleFile [] 8 LogSeverity_WARNING
              ['x']).1.stored).length ∧
        w'.cout = (if d'.num_chars_to_log_ > d'.num_prefix_chars_ + 1
          then World.start.cout ++ [withNewline (record sampleEnv World.start sampleFile [] 8
            LogSeverity_WARNING ['x']).1.stored]
          else World.start.cout)) ∧
      (LogSeverity_WARNING < World.start.FLAGS_minlogSeverity →
        d' = (record sampleEnv World.start sampleFile [] 8 LogSeverity_WARNING ['x']).1 ∧
        w' = World.start)) ∧
    (∀ w0 : World, w0.FLAGS_minlogSeverity = LogSeverity_INFO →
      ∃ w', logStatement sampleEnv w0 sampleFile [] 8 LogSeverity_DEBUG ['x'] = some w' ∧
        w'.cout = w0.cout ∧ w'.disk = w0.disk) :=
  C4_threshold_filter sampleEnv sampleEnv World.start World.start sampleFile [] 8
    LogSeverity_WARNING ['x'] (by decide) (by decide)

/-- C5 (amended): a flush request on a record whose severity is below the
threshold returns without emitting anything and leaves the record as it
was, its `has_been_flushed_` still unset; a later request does nothing as
long as the threshold is above the severity, and the first request made
once the threshold is at or below the severity performs the flush. -/
theorem C5_filtered_flush_keeps_pending (env envf : Env) (w wf : World)
    (file function : List Char) (line severity : Int) (c : List Char)
    (hlt : (record env w file function line severity c).1.severity_
      < wf.FLAGS_minlogSeverity) :
    Flush envf (record env w file function line severity c).1 wf
      = some ((record env w file function line severity c).1, wf) ∧
    (record env w file function line severity c).1.has_been_flushed_ = false ∧
    (∀ (e : Env) (v : World),
      (record env w file function line severity c).1.severity_ < v.FLAGS_minlogSeverity →
      Flush e (record env w file function line severity c).1 v
        = some ((record env w file function line severity c).1, v)) ∧
    (∀ (e : Env) (v : World),
      v.FLAGS_minlogSeverity ≤ (record env w file function line severity c).1.severity_ →
      ∃ d' w', Flush e (record env w file function line severity c).1 v = some (d', w') ∧
        d'.has_been_flushed_ = true ∧
        w'.cout = (if (withNewline (record env w file function line severity c).1.stored).length
            > (record env w file function line severity c).1.num_prefix_chars_ + 1
          then v.cout ++ [withNewline (record env w file function line severity c).1.stored]
          else v.cout)) := by
  obtain ⟨_, hsev, _, hfl, _, _⟩ := record_facts env w file function line severity c
  refine ⟨Flush_guard envf _ wf (Or.inr hlt), hfl, ?_, ?_⟩
  · intro e v hv
    exact Flush_guard e _ v (Or.inr hv)
  · intro e v hv
    rw [hsev] at hv
    exact ⟨_, _, Flush_record env e w v file function line severity c hv, rfl,
      flushedWorld_cout _ _ _ _ _ _⟩

/-- A concrete instance of C5: `LOG(DEBUG) << "x"` under the threshold
`INFO`. -/
theorem C5_filtered_flush_keeps_pending_witness :
    Flush sampleEnv (record sampleEnv World.start sampleFile [] 8 LogSeverity_DEBUG ['x']).1
        World.start
      = some ((record sampleEnv World.start sampleFile [] 8 LogSeverity_DEBUG ['x']).1,
          World.start) ∧
    (record sampleEnv World.start sampleFile [] 8 LogSeverity_DEBUG ['x']).1.has_been_flushed_
      = false :=
  have h := C5_filtered_flush_keeps_pending sampleEnv sampleEnv World.start World.start
    sampleFile [] 8 LogSeverity_DEBUG ['x']
    (by rw [(record_facts _ _ _ _ _ _ _).2.1]; decide)
  ⟨h.1, h.2.1⟩

/-- C5 fails as stated: `LOG(DEBUG) << "x"` flushed under the threshold
`INFO` is left with `has_been_flushed_` unset, and a second flush request
after the threshold has been lowered to `DEBUG` writes the line. -/
theorem C5_counterexample_flag_not_set :
    (record sampleEnv World.start sampleFile [] 8 LogSeverity_DEBUG ['x']).1.severity_
      < World.start.FLAGS_minlogSeverity ∧
    (Flush sampleEnv (record sampleEnv World.start sampleFile [] 8 LogSeverity_DEBUG ['x']).1
        World.start).map (fun r => r.1.has_been_flushed_) = some false ∧
    (∃ d' w', Flush sampleEnv
        (record sampleEnv World.start sampleFile [] 8 LogSeverity_DEBUG ['x']).1
        { World.start with FLAGS_minlogSeverity := LogSeverity_DEBUG } = some (d', w') ∧
      w'.cout = [(LogMessage_ctor sampleEnv World.start sampleFile [] 8
        LogSeverity_DEBUG).1.prefixBytes ++ ['x', '\n']]) := by
  have hsev := (record_facts sampleEnv World.start sampleFile [] 8 LogSeverity_DEBUG ['x']).2.1
  have hfl := (record_facts sampleEnv World.start sampleFile [] 8 LogSeverity_DEBUG
    ['x']).2.2.2.1
  have hlt : (record sampleEnv World.start sampleFile [] 8 LogSeverity_DEBUG ['x']).1.severity_
      < World.start.FLAGS_minlogSeverity := by
    rw [hsev]; decide
  refine ⟨hlt, ?_, ?_⟩
  · rw [Flush_guard sampleEnv _ World.start (Or.inr hlt)]
    simp [hfl]
  · obtain ⟨d', w', hF, _, _, hcout, _⟩ :=
      Flush_fits sampleEnv sampleEnv World.start
        { World.start with FLAGS_minlogSeverity := LogSeverity_DEBUG } sampleFile [] 8
        LogSeverity_DEBUG ['x'] (by decide) (by decide) (by decide) (by decide)
    refine ⟨d', w', hF, ?_⟩
    rw [hcout, Init_prefixBytes, List.take_of_length_le (by decide)]
    simp [World.start]

/-- What a logging statement at or above the threshold leaves in `errno`
when the caller's value was not zero: that value. -/
theorem logStatement_errno_restored (env : Env) (w : World) (file function : List Char)
    (line severity : Int) (c : List Char)
    (hs : w.FLAGS_minlogSeverity ≤ toSignedChar severity) (he : w.errno ≠ 0) :
    ∃ w', logStatement env w file function line severity c = some w' ∧
      w'.errno = w.errno := by
  obtain ⟨_, _, herr, _, _, hw⟩ := record_facts env w file function line severity c
  have hF := Flush_record env env w (record env w file function line severity c).2
    file function line severity c (by rw [hw]; exact hs)
  refine ⟨flushedWorld env (record env w file function line severity c).2
    (record env w file function line severity c).1.preserved_errno_
    (record env w file function line severity c).1.severity_
    (record env w file function line severity c).1.num_prefix_chars_
    (record env w file function line severity c).1.stored, ?_, ?_⟩
  · simp only [logStatement, LogMessage_dtor, hF, Option.map_some']
  · rw [herr]
    exact flushedWorld_errno _ _ _ _ _ _ he

/-- What a logging statement below the threshold leaves in `errno`: the
value the platform left there, whatever the caller's value was. -/
theorem logStatement_filtered (env : Env) (w : World) (file function : List Char)
    (line severity : Int) (c : List Char)
    (hs : toSignedChar severity < w.FLAGS_minlogSeverity) :
    logStatement env w file function line severity c
      = some { w with errno := env.errno_after_stream } := by
  obtain ⟨_, hsev, _, _, _, hw⟩ := record_facts env w file function line severity c
  have hF := Flush_guard env (record env w file function line severity c).1
    (record env w file function line severity c).2 (Or.inr (by rw [hsev, hw]; exact hs))
  simp only [logStatement, LogMessage_dtor, hF, Option.map_some']
  exact congrArg some hw

/-- C6, the failing input: `LOG(DEBUG) << "x"` under the threshold `INFO`,
entered with `errno = 5`, on a platform whose library calls leave `errno = 2`
while the prefix is formatted; after the statement `errno` is `2`, not `5`. -/
theorem C6_errno_lost_when_filtered :
    logStatement sampleEnv { World.start with errno := 5 } sampleFile [] 8 LogSeverity_DEBUG
        ['x']
      = some { World.start with errno := 2 } :=
  logStatement_filtered sampleEnv { World.start with errno := 5 } sampleFile [] 8
    LogSeverity_DEBUG ['x'] (by decide)

/-- C7: appending `s` to a `LogStreamBuf` built over `len` bytes of a buffer,
with `u ≤ len - 2` bytes used, reports every byte as written, leaves the
used length at `min (u + length s) (len - 2)`, never past `len - 2`, leaves
the buffer holding the old contents followed by the first `len - 2 - u`
bytes of `s`, keeps the buffer's length and the bytes from `len - 2` on, and
does not set the stream's error state. -/
theorem C7_append_bounded (len u : Nat) (buf s : List Char) (os : LogStream)
    (hbuf : len ≤ buf.length) (hu : u ≤ len - 2)
    (hos : os.streambuf_ = { LogStreamBuf.mk_setp len with pptr := u })
    (hgood : os.badbit = false) (hw : os.width = 0) :
    (xsputn buf os.streambuf_ s).2.2 = s.length ∧
    (xsputn buf os.streambuf_ s).2.1.pcount = min (u + s.length) (len - 2) ∧
    (xsputn buf os.streambuf_ s).2.1.pcount ≤ len - 2 ∧
    (xsputn buf os.streambuf_ s).1.take (xsputn buf os.streambuf_ s).2.1.pcount
      = buf.take u ++ s.take (len - 2 - u) ∧
    (xsputn buf os.streambuf_ s).1.length = buf.length ∧
    (xsputn buf os.streambuf_ s).1.drop (len - 2) = buf.drop (len - 2) ∧
    (ostream_insert buf os s).1 = (xsputn buf os.streambuf_ s).1 ∧
    (ostream_insert buf os s).2.streambuf_ = (xsputn buf os.streambuf_ s).2.1 ∧
    (ostream_insert buf os s).2.badbit = false := by
  have hx := xsputn_spec s buf os.streambuf_ (by rw [hos]; exact hu)
    (by rw [hos]; show len - 2 ≤ buf.length; omega)
  have hp : os.streambuf_.pptr = u := by rw [hos]
  have he : os.streambuf_.epptr = len - 2 := by rw [hos]; rfl
  rw [hp, he] at hx
  have hins : ostream_insert buf os s
      = ((xsputn buf os.streambuf_ s).1,
          { os with streambuf_ := (xsputn buf os.streambuf_ s).2.1, width := 0,
                    badbit := decide ((xsputn buf os.streambuf_ s).2.2 ≠ s.length) }) := by
    simp [ostream_insert, hgood, padField, hw]
  rw [hins, hx]
  refine ⟨rfl, rfl, ?_, ?_, ?_, ?_, rfl, rfl, ?_⟩
  · show min (u + s.length) (len - 2) ≤ len - 2
    omega
  · show List.take (min (u + s.length) (len - 2)) _ = _
    rw [List.append_assoc, ← List.append_assoc]
    apply List.take_left'
    simp only [List.length_append, List.length_take]
    omega
  · simp only [List.length_append, List.length_take, List.length_drop]
    omega
  · show List.drop (len - 2) _ = _
    have hl : (buf.take u ++ s.take (len - 2 - u)).length = min (u + s.length) (len - 2) := by
      simp only [List.length_append, List.length_take]
      omega
    rw [List.drop_append_eq_append_drop, hl,
      List.drop_of_length_le (by rw [hl]; omega), List.nil_append, List.drop_drop]
    congr 1
    omega
  · simp

/-- A concrete instance of C7: six bytes appended to a fresh buffer of the
logger's size. -/
theorem C7_append_bounded_witness :
    (xsputn (List.replicate (kMaxLogMessageLen + 1) 'a')
      (LogStream.new kMaxLogMessageLen).streambuf_ "hello!".toList).2.2 = "hello!".toList.length :=
  (C7_append_bounded kMaxLogMessageLen 0 (List.replicate (kMaxLogMessageLen + 1) 'a')
    "hello!".toList (LogStream.new kMaxLogMessageLen)
    (by simp) (by decide) rfl rfl rfl).1

/-- The first flush of a record whose prefix leaves at least two bytes of
capacity and whose content is neither empty nor a lone newline writes one
line: the prefix, the part of the content that fits, and a newline unless
that part ends in one. -/
theorem Flush_line (env envf : Env) (w wf : World) (file function : List Char)
    (line severity : Int) (c : List Char)
    (hs : wf.FLAGS_minlogSeverity ≤ toSignedChar severity)
    (hc : c ≠ []) (hc1 : c ≠ ['\n'])
    (ha : (prefixText env file function line severity).length + 2 ≤ kMaxLogMessageLen - 2) :
    ∃ d' w', Flush envf (record env w file function line severity c).1 wf = some (d', w') ∧
      w' = flushedWorld envf wf w.errno (toSignedChar severity)
        (prefixText env file function line severity).length
        (prefixText env file function line severity
          ++ c.take (kMaxLogMessageLen - 2
              - (prefixText env file function line severity).length)) ∧
      w'.cout = wf.cout ++ [prefixText env file function line severity
        ++ c.take (kMaxLogMessageLen - 2 - (prefixText env file function line severity).length)
        ++ (if (c.take (kMaxLogMessageLen - 2
              - (prefixText env file function line severity).length)).getLast? = some '\n'
            then [] else ['\n'])] ∧
      w'.disk = (sinkWrite envf wf (prefixText env file function line severity
        ++ c.take (kMaxLogMessageLen - 2 - (prefixText env file function line severity).length)
        ++ (if (c.take (kMaxLogMessageLen - 2
              - (prefixText env file function line severity).length)).getLast? = some '\n'
            then [] else ['\n']))).disk := by
  obtain ⟨_, h2, h3, _, h5, _⟩ := record_facts env w file function line severity c
  have hF := Flush_record env envf w wf file function line severity c hs
  have hst := record_stored env w file function line severity c
  have hk : kMaxLogMessageLen = 2048 := rfl
  generalize hP : prefixText env file function line severity = P at *
  generalize hb : c.take (kMaxLogMessageLen - 2 - P.length) = body at *
  have hpos : 1 ≤ c.length := List.length_pos.mpr hc
  have hbl : body.length = min (kMaxLogMessageLen - 2 - P.length) c.length := by
    rw [← hb, List.length_take]
  have hbne : body ≠ [] := by
    intro h
    rw [h] at hbl
    simp only [List.length_nil] at hbl
    omega
  have hb1 : body ≠ ['\n'] := by
    intro h
    rw [h] at hbl
    simp only [List.length_singleton] at hbl
    have hc1len : c.length ≤ kMaxLogMessageLen - 2 - P.length := by omega
    rw [List.take_of_length_le hc1len] at hb
    exact hc1 (hb.trans h)
  rw [List.take_append_eq_append_take, List.take_of_length_le (by omega), hb] at hst
  have hp : (record env w file function line severity c).1.num_prefix_chars_ = P.length := by
    rw [h5]; omega
  have hwn : withNewline (P ++ body)
      = P ++ body ++ (if body.getLast? = some '\n' then [] else ['\n']) := by
    rw [withNewline_eq, getLast?_append_ne_nil _ _ hbne]
  have hgt : (withNewline (P ++ body)).length > P.length + 1 := by
    rw [withNewline_length, getLast?_append_ne_nil _ _ hbne, List.length_append]
    have hpos2 : 1 ≤ body.length := List.length_pos.mpr hbne
    split
    · next hl =>
      have := length_ge_two_of_getLast? body '\n' hl hb1
      omega
    · omega
  rw [hst, hp, h2, h3] at hF
  refine ⟨_, _, hF, rfl, ?_, ?_⟩
  · rw [flushedWorld_cout, if_pos hgt, hwn]
  · rw [flushedWorld_disk, if_pos hgt, hwn]

theorem getLast?_take (l : List Char) (a : Nat) (ha : 1 ≤ a) (hc : a ≤ l.length) :
    (l.take a).getLast? = l[a - 1]? := by
  rw [List.getLast?_eq_getElem?, List.length_take, Nat.min_eq_left hc,
    List.getElem?_take_of_lt (by omega)]

/-- C8: for the record of a logging statement at or above the threshold
whose prefix `p` leaves `a = capacity - 2 - length p ≥ 2` bytes, and content
`c` longer than `a`, the first flush makes one sink write: `p`, the first `a`
bytes of `c`, and a newline unless the `a`-th byte of `c` is one; the log
file, when one is open, receives the same bytes. -/
theorem C8_truncated_line (env envf : Env) (w wf : World) (file function : List Char)
    (line severity : Int) (content : List Char)
    (hs : wf.FLAGS_minlogSeverity
      ≤ (record env w file function line severity content).1.severity_)
    (ha : 2 ≤ kMaxLogMessageLen - 2
      - (LogMessage_ctor env w file function line severity).1.prefixBytes.length)
    (hc : content.length > kMaxLogMessageLen - 2
      - (LogMessage_ctor env w file function line severity).1.prefixBytes.length) :
    ∃ d' w', Flush envf (record env w file function line severity content).1 wf
        = some (d', w') ∧
      w'.cout = wf.cout ++ [(LogMessage_ctor env w file function line severity).1.prefixBytes
        ++ content.take (kMaxLogMessageLen - 2
            - (LogMessage_ctor env w file function line severity).1.prefixBytes.length)
        ++ (if content[kMaxLogMessageLen - 2
              - (LogMessage_ctor env w file function line severity).1.prefixBytes.length - 1]?
              = some '\n' then [] else ['\n'])] ∧
      w'.disk = (sinkWrite envf wf
        ((LogMessage_ctor env w file function line severity).1.prefixBytes
        ++ content.take (kMaxLogMessageLen - 2
            - (LogMessage_ctor env w file function line severity).1.prefixBytes.length)
        ++ (if content[kMaxLogMessageLen - 2
              - (LogMessage_ctor env w file function line severity).1.prefixBytes.length - 1]?
              = some '\n' then [] else ['\n']))).disk := by
  rw [(record_facts env w file function line severity content).2.1] at hs
  have hlen := Init_prefixBytes_length env w file function line severity
  have hfit : (prefixText env file function line severity).length + 2
      ≤ kMaxLogMessageLen - 2 := by omega
  have hp : (LogMessage_ctor env w file function line severity).1.prefixBytes
      = prefixText env file function line severity := by
    rw [Init_prefixBytes, List.take_of_length_le (by omega)]
  rw [hp] at ha hc ⊢
  have hcne : content ≠ [] := by
    intro h; rw [h] at hc; simp at hc
  have hc1 : content ≠ ['\n'] := by
    intro h; rw [h] at hc; simp only [List.length_singleton] at hc; omega
  obtain ⟨d', w', hF, _, hcout, hdisk⟩ :=
    Flush_line env envf w wf file function line severity content hs hcne hc1 hfit
  rw [getLast?_take content _ (by omega) (by omega)] at hcout hdisk
  exact ⟨d', w', hF, hcout, hdisk⟩

/-- A concrete instance of C8: three thousand bytes streamed by
`LOG(INFO)`. -/
theorem C8_truncated_line_witness :
    ∃ d' w', Flush sampleEnv (record sampleEnv World.start sampleFile [] 8 LogSeverity_INFO
        (List.replicate 3000 'x')).1 World.start = some (d', w') ∧
      w'.cout = World.start.cout
        ++ [(LogMessage_ctor sampleEnv World.start sampleFile [] 8 LogSeverity_INFO).1.prefixBytes
        ++ (List.replicate 3000 'x').take (kMaxLogMessageLen - 2
            - (LogMessage_ctor sampleEnv World.start sampleFile [] 8
                LogSeverity_INFO).1.prefixBytes.length)
        ++ (if (List.replicate 3000 'x')[kMaxLogMessageLen - 2
              - (LogMessage_ctor sampleEnv World.start sampleFile [] 8
                  LogSeverity_INFO).1.prefixBytes.length - 1]?
              = some '\n' then [] else ['\n'])] :=
  have h := C8_truncated_line sampleEnv sampleEnv World.start World.start sampleFile [] 8
    LogSeverity_INFO (List.replicate 3000 'x')
    (by rw [(record_facts _ _ _ _ _ _ _).2.1]; decide)
    (by rw [Init_prefixBytes_length]; decide)
    (by rw [Init_prefixBytes_length, List.length_replicate]; decide)
  h.imp fun _ h1 => h1.imp fun _ h2 => ⟨h2.1, h2.2.1⟩

theorem flushedWorld_fatal (envf : Env) (wf : World) (e : Int) (p : Nat) (st : List Char) :
    flushedWorld envf wf e LogSeverity_FATAL p st = abort (dispatchedWorld envf wf e p st) := by
  unfold flushedWorld
  rw [if_pos rfl]

theorem dispatchedWorld_cout (envf : Env) (wf : World) (e : Int) (p : Nat) (st : List Char) :
    (dispatchedWorld envf wf e p st).cout
      = if (withNewline st).length > p + 1 then wf.cout ++ [withNewline st] else wf.cout := by
  unfold dispatchedWorld sinkWrite
  split_ifs <;> rfl

theorem dispatchedWorld_disk (envf : Env) (wf : World) (e : Int) (p : Nat) (st : List Char) :
    (dispatchedWorld envf wf e p st).disk
      = if (withNewline st).length > p + 1 then (sinkWrite envf wf (withNewline st)).disk
        else wf.disk := by
  unfold dispatchedWorld sinkWrite
  split_ifs <;> rfl

theorem dispatchedWorld_aborted (envf : Env) (wf : World) (e : Int) (p : Nat)
    (st : List Char) : (dispatchedWorld envf wf e p st).aborted = wf.aborted := by
  unfold dispatchedWorld sinkWrite
  split_ifs <;> rfl

theorem prefixText_length_ge (env : Env) (file function : List Char) (line severity : Int) :
    function.length ≤ (prefixText env file function line severity).length := by
  by_cases hfn : function = []
  · simp [hfn]
  · simp only [prefixText, locationText, hfn, ne_eq, not_false_eq_true, if_true,
      List.length_append]
    omega

theorem record_stored_split (env : Env) (w : World) (file function : List Char)
    (line severity : Int) (c : List Char) :
    (record env w file function line severity c).1.stored
      = (LogMessage_ctor env w file function line severity).1.prefixBytes
        ++ c.take (kMaxLogMessageLen - 2
          - (LogMessage_ctor env w file function line severity).1.prefixBytes.length) ∧
    (record env w file function line severity c).1.num_prefix_chars_
      = (LogMessage_ctor env w file function line severity).1.prefixBytes.length := by
  have hst := record_stored env w file function line severity c
  have hpb := Init_prefixBytes env w file function line severity
  have h5 := (record_facts env w file function line severity c).2.2.2.2.1
  have hk : kMaxLogMessageLen = 2048 := rfl
  generalize (record env w file function line severity c).1.stored = st at hst
  generalize (record env w file function line severity c).1.num_prefix_chars_ = np at h5
  generalize (LogMessage_ctor env w file function line severity).1.prefixBytes = pb at hpb
  generalize prefixText env file function line severity = P at hst hpb h5
  subst hpb hst h5
  constructor
  · rw [List.take_append_eq_append_take, List.length_take]
    congr 2
    omega
  · rw [List.length_take]
    omega

theorem withNewline_gt (pre kept : List Char) :
    (withNewline (pre ++ kept)).length > pre.length + 1 ↔ kept ≠ [] ∧ kept ≠ ['\n'] := by
  by_cases hk : kept = []
  · subst hk
    simp only [List.append_nil, ne_eq, not_true_eq_false, false_and, iff_false]
    rw [withNewline_length]
    split <;> omega
  · have hpos : 1 ≤ kept.length := List.length_pos.mpr hk
    rw [withNewline_length, getLast?_append_ne_nil _ _ hk, List.length_append]
    split
    · next hl =>
      constructor
      · intro h
        refine ⟨hk, ?_⟩
        intro h1
        rw [h1] at h
        simp at h
      · intro h
        have := length_ge_two_of_getLast? kept '\n' hl h.2
        omega
    · next hl =>
      constructor
      · intro _
        refine ⟨hk, ?_⟩
        intro h1
        rw [h1] at hl
        exact hl rfl
      · intro _
        omega

/-- The first flush of a record at or above the threshold, in terms of the
prefix and of the part of the content that the buffer kept. -/
theorem Flush_kept (env envf : Env) (w wf : World) (file function : List Char)
    (line severity : Int) (c : List Char)
    (hs : wf.FLAGS_minlogSeverity ≤ toSignedChar severity) :
    ∃ d', Flush envf (record env w file function line severity c).1 wf
      = some (d', flushedWorld envf wf w.errno (toSignedChar severity)
          (LogMessage_ctor env w file function line severity).1.prefixBytes.length
          ((LogMessage_ctor env w file function line severity).1.prefixBytes
            ++ c.take (kMaxLogMessageLen - 2
              - (LogMessage_ctor env w file function line severity).1.prefixBytes.length))) := by
  obtain ⟨_, h2, h3, _, _, _⟩ := record_facts env w file function line severity c
  obtain ⟨hsp, hnp⟩ := record_stored_split env w file function line severity c
  have hF := Flush_record env envf w wf file function line severity c hs
  rw [hsp, hnp, h2, h3] at hF
  exact ⟨_, hF⟩

theorem flushedWorld_fatal_devices (envf : Env) (wf : World) (e : Int) (p : Nat)
    (st : List Char) (hgt : (withNewline st).length > p + 1) :
    (flushedWorld envf wf e LogSeverity_FATAL p st).stdout_device
      = wf.stdout_device ++ (wf.stdout_buffer ++ withNewline st).take envf.stdout_flush_count ∧
    (flushedWorld envf wf e LogSeverity_FATAL p st).stdout_buffer = [] ∧
    (flushedWorld envf wf e LogSeverity_FATAL p st).file_buffer = [] ∧
    (flushedWorld envf wf e LogSeverity_FATAL p st).file_device
      = (match wf.g_current_log_file with
          | some _ => wf.file_device
              ++ (wf.file_buffer ++ withNewline st).take envf.file_flush_count
          | none => wf.file_device) := by
  unfold flushedWorld dispatchedWorld sinkWrite abort
  rw [if_pos rfl, if_pos hgt]
  split_ifs <;> exact ⟨rfl, rfl, rfl, rfl⟩

/-- C9 fails as stated: `LOG(FATAL) << "\n"` has non-empty content, and
its first flush aborts the process with nothing passed to the sink; so does
the first flush of a `FATAL` record whose prefix, with a function name of
three thousand bytes, fills the buffer, whatever is streamed. -/
theorem C9_counterexample_fatal_lone_newline :
    ((['\n'] : List Char) ≠ [] ∧
      ∃ d' w', Flush sampleEnv (record sampleEnv World.start sampleFile [] 8 LogSeverity_FATAL
          ['\n']).1 World.start = some (d', w') ∧
        w'.aborted = true ∧ w'.cout = []) ∧
    ("hello!".toList ≠ [] ∧
      ∃ d' w', Flush sampleEnv (record sampleEnv World.start sampleFile
          (List.replicate 3000 'f') 8 LogSeverity_FATAL "hello!".toList).1 World.start
          = some (d', w') ∧
        w'.aborted = true ∧ w'.cout = []) := by
  constructor
  · obtain ⟨d', w', hF, _, hab, hcout, _⟩ :=
      Flush_blank sampleEnv sampleEnv World.start World.start sampleFile [] 8
        LogSeverity_FATAL ['\n'] (by decide) (Or.inr rfl)
    refine ⟨by decide, d', w', hF, ?_, ?_⟩
    · rw [hab]; decide
    · rw [hcout]; rfl
  · obtain ⟨d', hF⟩ := Flush_kept sampleEnv sampleEnv World.start World.start sampleFile
      (List.replicate 3000 'f') 8 LogSeverity_FATAL "hello!".toList (by decide)
    have hk : kMaxLogMessageLen = 2048 := rfl
    have hlen := Init_prefixBytes_length sampleEnv World.start sampleFile
      (List.replicate 3000 'f') 8 LogSeverity_FATAL
    have hge := prefixText_length_ge sampleEnv sampleFile (List.replicate 3000 'f') 8
      LogSeverity_FATAL
    rw [List.length_replicate] at hge
    have hz : kMaxLogMessageLen - 2
        - (LogMessage_ctor sampleEnv World.start sampleFile (List.replicate 3000 'f') 8
            LogSeverity_FATAL).1.prefixBytes.length = 0 := by
      rw [hlen]; omega
    rw [hz] at hF
    refine ⟨by decide, d', _, hF, ?_, ?_⟩
    · rw [flushedWorld_aborted, if_pos (by decide)]
    · rw [flushedWorld_cout, if_neg]
      · rfl
      · rw [withNewline_gt]
        simp

/-- C9 (amended): for every severity `s` of the scale and every threshold of
the scale, the first flush of a record in a live process calls `abort()`
exactly when `s` is `FATAL`. For a `FATAL` record of which the buffer kept a
content (the first `capacity - 2 - length prefix` bytes of what was streamed)
that is neither empty nor a lone newline, the record's line, prefix and kept
content and newline, has been passed to `std::cout.write`, and to `fwrite`
for an open log file, before `abort()` is called; when the kept content is
empty or a lone newline nothing has been passed. Whether the bytes passed
have left the stdio buffers by then is not part of the statement. -/
theorem C9_fatal_aborts_after_dispatch (env envf : Env) (w wf : World)
    (file function : List Char) (line s : Int) (c : List Char)
    (h1 : LogSeverity_NEVER ≤ s) (h2 : s ≤ LogSeverity_FATAL)
    (ht : wf.FLAGS_minlogSeverity ≤ LogSeverity_FATAL) (hlive : wf.aborted = false) :
    ∃ d' w', Flush envf (record env w file function line s c).1 wf = some (d', w') ∧
      (w'.aborted = true ↔ s = LogSeverity_FATAL) ∧
      (s = LogSeverity_FATAL →
        c.take (kMaxLogMessageLen - 2
          - (LogMessage_ctor env w file function line s).1.prefixBytes.length) ≠ [] →
        c.take (kMaxLogMessageLen - 2
          - (LogMessage_ctor env w file function line s).1.prefixBytes.length) ≠ ['\n'] →
        ∃ w1, w' = abort w1 ∧ w1.aborted = false ∧
          w1.cout = wf.cout ++ [(LogMessage_ctor env w file function line s).1.prefixBytes
            ++ c.take (kMaxLogMessageLen - 2
              - (LogMessage_ctor env w file function line s).1.prefixBytes.length)
            ++ (if (c.take (kMaxLogMessageLen - 2
                  - (LogMessage_ctor env w file function line s).1.prefixBytes.length)).getLast?
                = some '\n' then [] else ['\n'])] ∧
          w1.disk = (sinkWrite envf wf
            ((LogMessage_ctor env w file function line s).1.prefixBytes
            ++ c.take (kMaxLogMessageLen - 2
              - (LogMessage_ctor env w file function line s).1.prefixBytes.length)
            ++ (if (c.take (kMaxLogMessageLen - 2
                  - (LogMessage_ctor env w file function line s).1.prefixBytes.length)).getLast?
                = some '\n' then [] else ['\n']))).disk) ∧
      (s = LogSeverity_FATAL →
        (c.take (kMaxLogMessageLen - 2
            - (LogMessage_ctor env w file function line s).1.prefixBytes.length) = [] ∨
          c.take (kMaxLogMessageLen - 2
            - (LogMessage_ctor env w file function line s).1.prefixBytes.length) = ['\n']) →
        ∃ w1, w' = abort w1 ∧ w1.aborted = false ∧ w1.cout = wf.cout ∧ w1.disk = wf.disk) := by
  obtain ⟨_, hsev, _, _, _, _⟩ := record_facts env w file function line s c
  have hts := toSignedChar_of_scale s h1 h2
  rw [hts] at hsev
  generalize hkept : c.take (kMaxLogMessageLen - 2
    - (LogMessage_ctor env w file function line s).1.prefixBytes.length) = kept
  by_cases hs : wf.FLAGS_minlogSeverity ≤ s
  · obtain ⟨d', hF⟩ := Flush_kept env envf w wf file function line s c
      (by rw [hts]; exact hs)
    rw [hkept, hts] at hF
    have hcond := withNewline_gt
      (LogMessage_ctor env w file function line s).1.prefixBytes kept
    refine ⟨d', _, hF, ?_, ?_, ?_⟩
    · rw [flushedWorld_aborted, hlive]
      by_cases hfat : s = LogSeverity_FATAL <;> simp [hfat]
    · intro hfat hne hne1
      have hgt := hcond.mpr ⟨hne, hne1⟩
      subst hfat
      rw [flushedWorld_fatal]
      refine ⟨_, rfl, by rw [dispatchedWorld_aborted, hlive], ?_, ?_⟩
      · rw [dispatchedWorld_cout, if_pos hgt, withNewline_eq,
          getLast?_append_ne_nil _ _ hne]
      · rw [dispatchedWorld_disk, if_pos hgt, withNewline_eq,
          getLast?_append_ne_nil _ _ hne]
    · intro hfat hblank
      have hle : ¬ (withNewline ((LogMessage_ctor env w file function line s).1.prefixBytes
          ++ kept)).length
          > (LogMessage_ctor env w file function line s).1.prefixBytes.length + 1 := by
        rw [hcond]
        rcases hblank with h | h <;> simp [h]
      subst hfat
      rw [flushedWorld_fatal]
      refine ⟨_, rfl, by rw [dispatchedWorld_aborted, hlive], ?_, ?_⟩
      · rw [dispatchedWorld_cout, if_neg hle]
      · rw [dispatchedWorld_disk, if_neg hle]
  · have hF := Flush_guard envf (record env w file function line s c).1 wf
      (Or.inr (by rw [hsev]; omega))
    have hne : s ≠ LogSeverity_FATAL := by omega
    refine ⟨_, _, hF, ?_, ?_, ?_⟩
    · simp [hlive, hne]
    · intro hfat
      exact absurd hfat hne
    · intro hfat
      exact absurd hfat hne

/-- A concrete instance of C9: `LOG(FATAL) << "hello!"` in a fresh
process aborts, after the line has been passed to `std::cout.write`. -/
theorem C9_fatal_aborts_after_dispatch_witness :
    ∃ d' w', Flush sampleEnv (record sampleEnv World.start sampleFile [] 8 LogSeverity_FATAL
        "hello!".toList).1 World.start = some (d', w') ∧
      (w'.aborted = true ↔ LogSeverity_FATAL = LogSeverity_FATAL) ∧
      ∃ w1, w' = abort w1 ∧ w1.aborted = false ∧
        w1.cout = ["[F 01/02 03:04:05.007 1700000000  0x7f main.cpp:8] hello!\n".toList] := by
  obtain ⟨d', w', hF, hiff, hdisp, _⟩ :=
    C9_fatal_aborts_after_dispatch sampleEnv sampleEnv World.start World.start
      sampleFile [] 8 LogSeverity_FATAL "hello!".toList (by decide) (by decide) (by decide) rfl
  have hp : (LogMessage_ctor sampleEnv World.start sampleFile [] 8
      LogSeverity_FATAL).1.prefixBytes
      = "[F 01/02 03:04:05.007 1700000000  0x7f main.cpp:8] ".toList := by
    rw [Init_prefixBytes]
    decide
  rw [hp] at hdisp
  obtain ⟨w1, e1, e2, e3, _⟩ := hdisp rfl (by decide) (by decide)
  refine ⟨d', w', hF, hiff, w1, e1, e2, ?_⟩
  rw [e3]
  decide

theorem GetLogSeverityName_eq (severity : Int) :
    GetLogSeverityName severity = [spec_letter severity] := by
  simp only [GetLogSeverityName, spec_letter, LogSeverity_TESTS, LogSeverity_NEVER,
    LogSeverity_DEBUG, LogSeverity_INFO, LogSeverity_WARNING, LogSeverity_ERROR,
    LogSeverity_FATAL]
  split_ifs <;> first | rfl | (exfalso; omega)

theorem fmtInt_natCast (n : Nat) : fmtInt (n : Int) = (toString n).toList := by
  have h : ¬ ((n : Int) < 0) := by omega
  simp only [fmtInt, h, if_false, Int.natAbs_ofNat]
  rfl

theorem fmtInt_eq_spec_decimal (v : Int) : fmtInt v = spec_decimal v := by
  cases v with
  | ofNat n => exact fmtInt_natCast n
  | negSucc n =>
    have h : Int.negSucc n < 0 := Int.negSucc_lt_zero n
    simp only [fmtInt, h, if_true]
    rfl

theorem padTo_fmtInt (width n : Nat) :
    padTo width '0' (fmtInt (n : Int)) = spec_pad0 width n := by
  rw [fmtInt_natCast]
  rfl

/-- The text `Init` inserts is the prefix of the specification. -/
theorem prefixText_eq_spec (env : Env) (severity : Int)
    (tm_mon tm_mday tm_hour tm_min tm_sec usec : Nat) (file function : List Char)
    (line : Int) :
    prefixText { env with
        tm_time := { tm_sec := tm_sec, tm_min := tm_min, tm_hour := tm_hour,
                     tm_mday := tm_mday, tm_mon := tm_mon }
        tv_usec := usec } file function line severity
      = spec_prefix_text severity tm_mon tm_mday tm_hour tm_min tm_sec usec env.now env.thread_id
          file function line := by
  have hm : (1 : Int) + (tm_mon : Int) = ((1 + tm_mon : Nat) : Int) := by push_cast; rfl
  have hu : Int.tdiv (usec : Int) 1000 = ((usec / 1000 : Nat) : Int) :=
    (Int.ofNat_tdiv usec 1000).symm
  simp only [prefixText, dateTimeText, locationText, spec_prefix_text]
  rw [hm, hu]
  simp only [padTo_fmtInt]
  simp only [GetLogSeverityName_eq, fmtInt_eq_spec_decimal]
  by_cases hfn : function = []
  · simp only [hfn, ne_eq, not_true_eq_false, if_true, if_false, padTo, spec_padspace_left,
      List.append_assoc, List.cons_append, List.nil_append, List.append_nil]
  · simp only [hfn, ne_eq, not_false_eq_true, if_true, if_false, padTo, spec_padspace_left,
      List.append_assoc, List.cons_append, List.nil_append, List.append_nil]

/-- C10: when the prefix of the specification, built from the severity, the
broken-down local time, the microseconds, the epoch seconds, the thread
text, the path, the function name and the line, fits in `capacity - 2`
bytes, the prefix `Init` writes is that text, and `num_prefix_chars_` is its
length. -/
theorem C10_prefix_format (env : Env) (w : World) (sm : SendMethod) (severity : Int)
    (tm_mon tm_mday tm_hour tm_min tm_sec usec : Nat) (file function : List Char)
    (line : Int)
    (hfit : (spec_prefix_text severity tm_mon tm_mday tm_hour tm_min tm_sec usec env.now
      env.thread_id file function line).length ≤ kMaxLogMessageLen - 2) :
    (Init { env with
        tm_time := { tm_sec := tm_sec, tm_min := tm_min, tm_hour := tm_hour,
                     tm_mday := tm_mday, tm_mon := tm_mon }
        tv_usec := usec } w file function line severity sm).1.prefixBytes
      = spec_prefix_text severity tm_mon tm_mday tm_hour tm_min tm_sec usec env.now env.thread_id
          file function line ∧
    (Init { env with
        tm_time := { tm_sec := tm_sec, tm_min := tm_min, tm_hour := tm_hour,
                     tm_mday := tm_mday, tm_mon := tm_mon }
        tv_usec := usec } w file function line severity sm).1.num_prefix_chars_
      = (spec_prefix_text severity tm_mon tm_mday tm_hour tm_min tm_sec usec env.now env.thread_id
          file function line).length := by
  have hI := Holds_Init { env with
        tm_time := { tm_sec := tm_sec, tm_min := tm_min, tm_hour := tm_hour,
                     tm_mday := tm_mday, tm_mon := tm_mon }
        tv_usec := usec } w file function line severity sm
  have hf := Init_fields { env with
        tm_time := { tm_sec := tm_sec, tm_min := tm_min, tm_hour := tm_hour,
                     tm_mday := tm_mday, tm_mon := tm_mon }
        tv_usec := usec } w file function line severity sm
  rw [prefixText_eq_spec] at hI
  obtain ⟨_, _, h3, h4, _, _⟩ := hI
  have hn := hf.2.2.2.2.1
  constructor
  · unfold LogMessageData.prefixBytes
    rw [hn]
    unfold LogStream.pcount LogStreamBuf.pcount
    rw [h4, List.take_of_length_le hfit]
  · rw [hn]
    unfold LogStream.pcount LogStreamBuf.pcount
    rw [h3]
    omega

/-- A concrete instance of C10: the prefix of `LOG(INFO)` at line 8 of
`src/main.cpp`. -/
theorem C10_prefix_format_witness :
    (Init { sampleEnv with
        tm_time := { tm_sec := (5 : Nat), tm_min := (4 : Nat), tm_hour := (3 : Nat),
                     tm_mday := (2 : Nat), tm_mon := (0 : Nat) }
        tv_usec := (7999 : Nat) } World.start sampleFile [] 8 LogSeverity_INFO
        SendMethod.SendToLog).1.prefixBytes
      = "[I 01/02 03:04:05.007 1700000000  0x7f main.cpp:8] ".toList :=
  (C10_prefix_format sampleEnv World.start SendMethod.SendToLog LogSeverity_INFO 0 2 3 4 5 7999
    sampleFile [] 8 (by decide)).1.trans (by decide)

/-! ## The base name -/

theorem strrchr_eq_none (ch : Char) : ∀ (s : List Char), strrchr s ch = none ↔ ch ∉ s := by
  intro s
  induction s with
  | nil => simp [strrchr]
  | cons x s ih =>
    cases h : strrchr s ch with
    | some i =>
      have hin : ch ∈ s := by
        by_contra hn
        rw [ih.mpr hn] at h
        exact Option.noConfusion h
      simp [strrchr, h, hin]
    | none =>
      have hn : ch ∉ s := ih.mp h
      by_cases hx : x = ch
      · simp [strrchr, h, hx]
      · have hx' : ¬ ch = x := fun e => hx e.symm
        simp [strrchr, h, hx, hx', hn]

theorem strrchr_eq_some (ch : Char) : ∀ (s : List Char) (i : Nat), strrchr s ch = some i →
    s = s.take i ++ ch :: s.drop (i + 1) ∧ ch ∉ s.drop (i + 1) := by
  intro s
  induction s with
  | nil => intro i h; simp [strrchr] at h
  | cons x s ih =>
    intro i h
    cases hs : strrchr s ch with
    | some j =>
      simp only [strrchr, hs, Option.some.injEq] at h
      subst h
      obtain ⟨h1, h2⟩ := ih j hs
      constructor
      · simp only [List.take_succ_cons, List.drop_succ_cons, List.cons_append]
        rw [← h1]
      · simpa using h2
    | none =>
      have hn : ch ∉ s := (strrchr_eq_none ch s).mp hs
      simp only [strrchr, hs] at h
      by_cases hx : x = ch
      · simp only [hx, if_true, Option.some.injEq] at h
        subst h
        simp [hx, hn]
      · simp [hx] at h

/-- C11: `const_basename` returns the whole path when it has no `'/'`, and
otherwise the part of the path after its last `'/'` (the path is some text,
a `'/'`, and the result, which has no `'/'`); the result has no `'/'`, is a
suffix of the path, and is its own base name. The macro `__FILENAME__`
computes the same. -/
theorem C11_const_basename (filepath : List Char) :
    ('/' ∉ filepath → const_basename filepath = filepath) ∧
    ('/' ∈ filepath → ∃ dir, filepath = dir ++ '/' :: const_basename filepath) ∧
    '/' ∉ const_basename filepath ∧
    const_basename filepath <:+ filepath ∧
    const_basename (const_basename filepath) = const_basename filepath ∧
    FILENAME filepath = const_basename filepath := by
  have hno : ∀ p : List Char, '/' ∉ p → const_basename p = p := by
    intro p hp
    simp [const_basename, (strrchr_eq_none '/' p).mpr hp]
  have hnot : '/' ∉ const_basename filepath := by
    cases h : strrchr filepath '/' with
    | none =>
      simp only [const_basename, h]
      exact (strrchr_eq_none '/' filepath).mp h
    | some i =>
      simp only [const_basename, h]
      exact (strrchr_eq_some '/' filepath i h).2
  refine ⟨hno filepath, ?_, hnot, ?_, hno _ hnot, rfl⟩
  · intro hin
    cases h : strrchr filepath '/' with
    | none => exact absurd hin ((strrchr_eq_none '/' filepath).mp h)
    | some i =>
      simp only [const_basename, h]
      exact ⟨filepath.take i, (strrchr_eq_some '/' filepath i h).1⟩
  · cases h : strrchr filepath '/' with
    | none =>
      simp only [const_basename, h]
      exact List.suffix_refl _
    | some i =>
      simp only [const_basename, h]
      exact List.drop_suffix _ _

/-- A concrete instance of C11: the base name of `src/main.cpp`. -/
theorem C11_const_basename_witness :
    const_basename sampleFile = "main.cpp".toList ∧
    const_basename (const_basename sampleFile) = const_basename sampleFile :=
  ⟨by decide, (C11_const_basename sampleFile).2.2.2.2.1⟩

/-! ## The destination file -/

theorem flushedWorld_g_current_log_file (envf : Env) (wf : World) (e sev : Int) (p : Nat)
    (st : List Char) :
    (flushedWorld envf wf e sev p st).g_current_log_file = wf.g_current_log_file := by
  unfold flushedWorld dispatchedWorld sinkWrite abort
  split_ifs <;> rfl

theorem flushedWorld_open_streams (envf : Env) (wf : World) (e sev : Int) (p : Nat)
    (st : List Char) :
    (flushedWorld envf wf e sev p st).open_streams = wf.open_streams := by
  unfold flushedWorld dispatchedWorld sinkWrite abort
  split_ifs <;> rfl

/-- What a logging statement returns: the world `Flush` leaves past its
guard when the severity is at or above the threshold, and otherwise the
world with only `errno` touched. -/
theorem logStatement_cases (env : Env) (w : World) (file function : List Char)
    (line severity : Int) (c : List Char) :
    (w.FLAGS_minlogSeverity ≤ toSignedChar severity ∧
      logStatement env w file function line severity c
        = some (flushedWorld env { w with errno := env.errno_after_stream }
            (record env w file function line severity c).1.preserved_errno_
            (record env w file function line severity c).1.severity_
            (record env w file function line severity c).1.num_prefix_chars_
            (record env w file function line severity c).1.stored)) ∨
    (toSignedChar severity < w.FLAGS_minlogSeverity ∧
      logStatement env w file function line severity c
        = some { w with errno := env.errno_after_stream }) := by
  by_cases hs : w.FLAGS_minlogSeverity ≤ toSignedChar severity
  · left
    refine ⟨hs, ?_⟩
    obtain ⟨_, _, _, _, _, hw⟩ := record_facts env w file function line severity c
    have hF := Flush_record env env w (record env w file function line severity c).2
      file function line severity c (by rw [hw]; exact hs)
    simp only [logStatement, LogMessage_dtor, hF, Option.map_some']
    rw [hw]
  · right
    have hlt : toSignedChar severity < w.FLAGS_minlogSeverity := by omega
    exact ⟨hlt, logStatement_filtered env w file function line severity c hlt⟩

/-- A logging statement always returns, keeps the destination file handle
and the open streams, and writes to the sink not at all or once. -/
theorem logStatement_frame (env : Env) (w : World) (file function : List Char)
    (line severity : Int) (c : List Char) :
    ∃ w', logStatement env w file function line severity c = some w' ∧
      w'.g_current_log_file = w.g_current_log_file ∧
      w'.open_streams = w.open_streams ∧
      ((w'.cout = w.cout ∧ w'.disk = w.disk) ∨
        ∃ l, w'.cout = w.cout ++ [l] ∧
          w'.disk = (match w.g_current_log_file with
            | some name => fwrite w.disk name l
            | none => w.disk)) := by
  rcases logStatement_cases env w file function line severity c with ⟨_, h⟩ | ⟨_, h⟩
  · refine ⟨_, h, flushedWorld_g_current_log_file _ _ _ _ _ _,
      flushedWorld_open_streams _ _ _ _ _ _, ?_⟩
    rw [flushedWorld_cout, flushedWorld_disk]
    split
    · exact Or.inr ⟨_, rfl, rfl⟩
    · exact Or.inl ⟨rfl, rfl⟩
  · exact ⟨_, h, rfl, rfl, Or.inl ⟨rfl, rfl⟩⟩

theorem fileContents_fwrite_fopen_w (disk : List (List Char × List Char))
    (f l : List Char) : fileContents (fwrite (fopen_w disk f) f l) f = some l := by
  simp [fileContents, fwrite, fopen_w]

theorem SetCurrentLogFilename_open (fe : FileEnv) (f : List Char) (w : World)
    (hok : fe.fopen_ok = true) (hf : f ≠ []) :
    (SetCurrentLogFilename fe (some f) w).g_current_log_file = some f ∧
    (SetCurrentLogFilename fe (some f) w).disk = fopen_w w.disk f ∧
    (SetCurrentLogFilename fe (some f) w).cout = w.cout := by
  obtain ⟨_, _, _, g, _, _, _, _, _, _, _⟩ := w
  cases g <;> simp [SetCurrentLogFilename, hf, hok]

theorem SetCurrentLogFilename_clear (fe : FileEnv) (clear : Option (List Char))
    (w : World) (hclear : clear = none ∨ clear = some []) :
    (SetCurrentLogFilename fe clear w).g_current_log_file = none ∧
    (SetCurrentLogFilename fe clear w).disk = w.disk ∧
    (SetCurrentLogFilename fe clear w).cout = w.cout := by
  obtain ⟨_, _, _, g, _, _, _, _, _, _, _⟩ := w
  rcases hclear with rfl | rfl <;> cases g <;> simp [SetCurrentLogFilename]

theorem SetCurrentLogFilename_one_open (fe : FileEnv) (filename : Option (List Char))
    (w : World) (h : w.open_streams = w.g_current_log_file.toList) :
    (SetCurrentLogFilename fe filename w).open_streams
      = (SetCurrentLogFilename fe filename w).g_current_log_file.toList := by
  obtain ⟨_, _, _, g, _, _, os, _, _, _, _⟩ := w
  obtain ⟨ok, _, _⟩ := fe
  simp only at h
  subst h
  cases g with
  | none =>
    cases filename with
    | none => simp [SetCurrentLogFilename]
    | some f =>
      by_cases hf : f = []
      · simp [SetCurrentLogFilename, hf]
      · cases ok <;> simp [SetCurrentLogFilename, hf]
  | some name =>
    cases filename with
    | none => simp [SetCurrentLogFilename]
    | some f =>
      by_cases hf : f = []
      · simp [SetCurrentLogFilename, hf]
      · cases ok <;> simp [SetCurrentLogFilename, hf]

theorem runOps_one_open : ∀ (ops : List Op) (w v : World),
    w.open_streams = w.g_current_log_file.toList → runOps ops w = some v →
    v.open_streams = v.g_current_log_file.toList := by
  intro ops
  induction ops with
  | nil =>
    intro w v h hr
    simp only [runOps, Option.some.injEq] at hr
    rw [← hr]; exact h
  | cons op ops ih =>
    intro w v h hr
    simp only [runOps] at hr
    split at hr
    · simp only [Option.some.injEq] at hr
      rw [← hr]; exact h
    · cases op with
      | setFile fe filename =>
        simp only [Op.step] at hr
        exact ih _ v (SetCurrentLogFilename_one_open fe filename w h) hr
      | log env file function line severity content =>
        obtain ⟨w', hw', hg, ho, _⟩ :=
          logStatement_frame env w file function line severity content
        simp only [Op.step, hw'] at hr
        exact ih w' v (by rw [hg, ho]; exact h) hr

/-- C12: after `SetCurrentLogFilename(f)` with a non-empty name `f` that
opens, one logging statement returns; when it emits the line `l` to the
console and the process goes on, then after `SetCurrentLogFilename("")` (or
`NULL`) the file `f` holds exactly `l` and no destination file is set. A
logging statement made while no destination file is set leaves the disk as
it was and writes to the console at most. In every state reached from the
start of the process the streams held open are the one of
`g_current_log_file`, so at most one. -/
theorem C12_destination_file (env : Env) (fe1 fe2 : FileEnv) (w : World)
    (f file function : List Char) (line severity : Int) (c : List Char)
    (clear : Option (List Char))
    (hok : fe1.fopen_ok = true) (hf : f ≠ []) (hclear : clear = none ∨ clear = some []) :
    (∃ w2, logStatement env (SetCurrentLogFilename fe1 (some f) w) file function line
        severity c = some w2 ∧
      ∀ l, w2.cout = (SetCurrentLogFilename fe1 (some f) w).cout ++ [l] →
        w2.aborted = false →
        fileContents (SetCurrentLogFilename fe2 clear w2).disk f = some l ∧
        (SetCurrentLogFilename fe2 clear w2).g_current_log_file = none) ∧
    (∀ (env' : Env) (v : World) (file' function' : List Char) (line' severity' : Int)
        (c' : List Char), v.g_current_log_file = none →
      ∃ v', logStatement env' v file' function' line' severity' c' = some v' ∧
        v'.disk = v.disk ∧ v'.g_current_log_file = none ∧
        (v'.cout = v.cout ∨ ∃ l', v'.cout = v.cout ++ [l'])) ∧
    (∀ (ops : List Op) (v : World), runOps ops World.start = some v →
      v.open_streams = v.g_current_log_file.toList ∧ v.open_streams.length ≤ 1) := by
  refine ⟨?_, ?_, ?_⟩
  · obtain ⟨hg, hd, _⟩ := SetCurrentLogFilename_open fe1 f w hok hf
    obtain ⟨w2, hw2, _, _, hcases⟩ :=
      logStatement_frame env (SetCurrentLogFilename fe1 (some f) w) file function line
        severity c
    refine ⟨w2, hw2, ?_⟩
    intro l hl _
    obtain ⟨hg3, hd3, _⟩ := SetCurrentLogFilename_clear fe2 clear w2 hclear
    refine ⟨?_, hg3⟩
    rw [hd3]
    rcases hcases with ⟨hc, _⟩ | ⟨l2, hc, hdisk⟩
    · rw [hc] at hl
      have := congrArg List.length hl
      simp at this
    · rw [hc] at hl
      have hl2 : l2 = l := by
        have := List.append_cancel_left hl
        simpa using this
      rw [hdisk, hg, hd, hl2]
      exact fileContents_fwrite_fopen_w w.disk f l
  · intro env' v file' function' line' severity' c' hv
    obtain ⟨v', hv', hg, _, hcases⟩ :=
      logStatement_frame env' v file' function' line' severity' c'
    refine ⟨v', hv', ?_, by rw [hg, hv], ?_⟩
    · rcases hcases with ⟨_, hd⟩ | ⟨l, _, hd⟩
      · exact hd
      · rw [hd, hv]
    · rcases hcases with ⟨hc, _⟩ | ⟨l, hc, _⟩
      · exact Or.inl hc
      · exact Or.inr ⟨l, hc⟩
  · intro ops v hr
    have h := runOps_one_open ops World.start v rfl hr
    refine ⟨h, ?_⟩
    rw [h]
    cases v.g_current_log_file <;> simp

/-- A concrete instance of C12: `LOG(INFO) << "hello!"` between
`SetCurrentLogFilename("log.txt")` and `SetCurrentLogFilename("")`. -/
theorem C12_destination_file_witness :
    ∃ w2, logStatement sampleEnv (SetCurrentLogFilename sampleFileEnv (some "log.txt".toList)
        World.start) sampleFile [] 8 LogSeverity_INFO "hello!".toList = some w2 ∧
      fileContents (SetCurrentLogFilename sampleFileEnv (some []) w2).disk "log.txt".toList
        = some "[I 01/02 03:04:05.007 1700000000  0x7f main.cpp:8] hello!\n".toList := by
  obtain ⟨⟨w2, hw2, hfile⟩, _, _⟩ :=
    C12_destination_file sampleEnv sampleFileEnv sampleFileEnv World.start "log.txt".toList
      sampleFile [] 8 LogSeverity_INFO "hello!".toList (some []) rfl (by decide) (Or.inr rfl)
  obtain ⟨_, _, _, _, _, hw⟩ :=
    record_facts sampleEnv (SetCurrentLogFilename sampleFileEnv (some "log.txt".toList)
      World.start) sampleFile [] 8 LogSeverity_INFO "hello!".toList
  obtain ⟨d', w', hF, _, hab, hcout, _⟩ :=
    Flush_fits sampleEnv sampleEnv
      (SetCurrentLogFilename sampleFileEnv (some "log.txt".toList) World.start)
      (record sampleEnv (SetCurrentLogFilename sampleFileEnv (some "log.txt".toList)
        World.start) sampleFile [] 8 LogSeverity_INFO "hello!".toList).2
      sampleFile [] 8 LogSeverity_INFO "hello!".toList
      (by rw [hw]; decide) (by decide) (by decide) (by decide)
  have hw2' : w2 = w' := by
    simp only [logStatement, LogMessage_dtor, hF, Option.map_some', Option.some.injEq] at hw2
    exact hw2.symm
  subst hw2'
  refine ⟨w2, hw2, (hfile _ ?_ ?_).1⟩
  · rw [hcout, hw]
    rfl
  · rw [hab, hw]
    rfl

/-! ## The severity `NEVER` -/

/-- C13 fails as stated: with the threshold `NEVER` itself, flushing the
record of `LogMessage(file, "", 8, LogSeverity_NEVER).stream() << "x"` writes
its line to the sink. -/
theorem C13_counterexample_threshold_never :
    ∃ d' w', Flush sampleEnv
        (record sampleEnv World.start sampleFile [] 8 LogSeverity_NEVER ['x']).1
        { World.start with FLAGS_minlogSeverity := LogSeverity_NEVER } = some (d', w') ∧
      w'.cout = ["[N 01/02 03:04:05.007 1700000000  0x7f main.cpp:8] x\n".toList] := by
  obtain ⟨d', w', hF, _, _, hcout, _⟩ :=
    Flush_fits sampleEnv sampleEnv World.start
      { World.start with FLAGS_minlogSeverity := LogSeverity_NEVER } sampleFile [] 8
      LogSeverity_NEVER ['x'] (by decide) (by decide) (by decide) (by decide)
  refine ⟨d', w', hF, ?_⟩
  rw [hcout]
  rfl

/-- C13 (amended): for every threshold of the scale above `NEVER` (`DEBUG` to
`FATAL`) and every streamed content, flushing a record of severity `NEVER`
writes nothing and leaves record and world as they were; with the threshold
`NEVER` itself the record gets past the guard like any other. -/
theorem C13_never_filtered_above_never (env envf : Env) (w wf : World)
    (file function : List Char) (line : Int) (c : List Char) :
    (LogSeverity_NEVER < wf.FLAGS_minlogSeverity →
      Flush envf (record env w file function line LogSeverity_NEVER c).1 wf
        = some ((record env w file function line LogSeverity_NEVER c).1, wf)) ∧
    (wf.FLAGS_minlogSeverity = LogSeverity_NEVER →
      ∃ d' w', Flush envf (record env w file function line LogSeverity_NEVER c).1 wf
          = some (d', w') ∧
        d'.has_been_flushed_ = true ∧
        w'.cout = (if (withNewline
              (record env w file function line LogSeverity_NEVER c).1.stored).length
            > (record env w file function line LogSeverity_NEVER c).1.num_prefix_chars_ + 1
          then wf.cout
            ++ [withNewline (record env w file function line LogSeverity_NEVER c).1.stored]
          else wf.cout)) := by
  have hsev := (record_facts env w file function line LogSeverity_NEVER c).2.1
  have hts : toSignedChar LogSeverity_NEVER = LogSeverity_NEVER := by decide
  constructor
  · intro h
    exact Flush_guard envf _ wf (Or.inr (by rw [hsev, hts]; exact h))
  · intro h
    exact ⟨_, _, Flush_record env envf w wf file function line LogSeverity_NEVER c
      (by rw [hts, h]), rfl, flushedWorld_cout _ _ _ _ _ _⟩

/-- A concrete instance of C13: a `NEVER` record under the threshold
`INFO`. -/
theorem C13_never_filtered_above_never_witness :
    Flush sampleEnv (record sampleEnv World.start sampleFile [] 8 LogSeverity_NEVER ['x']).1
        World.start
      = some ((record sampleEnv World.start sampleFile [] 8 LogSeverity_NEVER ['x']).1,
          World.start) :=
  (C13_never_filtered_above_never sampleEnv sampleEnv World.start World.start sampleFile []
    8 ['x']).1 (by decide)

/-! ## The check macros -/

theorem checkLoop_skip (body : World → Option World) (C : Nat) (w : World) (n : Nat) :
    checkLoop false body C w n = some (w, n) := by
  rw [checkLoop]
  simp

theorem checkLoop_done (failed : Bool) (body : World → Option World) (w : World) (n : Nat) :
    checkLoop failed body 1 w n = some (w, n) := by
  rw [checkLoop]
  simp

theorem checkLoop_once (body : World → Option World) (w w1 : World)
    (h : body w = some w1) : checkLoop true body 0 w 0 = some (w1, 1) := by
  rw [checkLoop]
  simp only [Nat.lt_one_iff, and_self, if_true, h]
  split
  · rfl
  · exact checkLoop_done true body w1 1

theorem logStatement_returns (env : Env) (w : World) (file function : List Char)
    (line severity : Int) (c : List Char) :
    ∃ w', logStatement env w file function line severity c = some w' := by
  obtain ⟨w', h, _⟩ := logStatement_frame env w file function line severity c
  exact ⟨w', h⟩

/-- C14: on `int`s, `CHECK_EQ_SEV(a, b, sev)` runs its logging statement
(constructing and flushing one record) exactly once when `a ≠ b` and not at
all when `a = b`; `CHECK_SEV(cond, sev)` runs it exactly once when `cond` is
false and not at all when it is true; `CHECK(true)` and `CHECK_EQ(42, 84/2)`
leave the world as it was. -/
theorem C14_check_macros (env : Env) (w : World) (file function : List Char) (line : Int)
    (a b sev : Int) (rest : List Char) :
    (a ≠ b → ∃ w', logStatement env w file function line sev
        (CHECK_EQ_SEV_text a b ++ rest) = some w' ∧
      CHECK_EQ_SEV env w file function line a b sev rest = some (w', 1)) ∧
    (a = b → CHECK_EQ_SEV env w file function line a b sev rest = some (w, 0)) ∧
    (∃ w', logStatement env w file function line sev
        (CHECK_SEV_text false ++ rest) = some w' ∧
      CHECK_SEV env w file function line false sev rest = some (w', 1)) ∧
    CHECK_SEV env w file function line true sev rest = some (w, 0) ∧
    CHECK env w file function line true rest = some (w, 0) ∧
    CHECK_EQ env w file function line 42 (Int.tdiv 84 2) rest = some (w, 0) := by
  refine ⟨?_, ?_, ?_, ?_, ?_, ?_⟩
  · intro hab
    obtain ⟨w', hw'⟩ := logStatement_returns env w file function line sev
      (CHECK_EQ_SEV_text a b ++ rest)
    refine ⟨w', hw', ?_⟩
    have hne : (!check_eq a b) = true := by simp [check_eq, hab]
    unfold CHECK_EQ_SEV
    rw [hne]
    exact checkLoop_once _ w w' hw'
  · intro hab
    have he : (!check_eq a b) = false := by simp [check_eq, hab]
    unfold CHECK_EQ_SEV
    rw [he]
    exact checkLoop_skip _ 0 w 0
  · obtain ⟨w', hw'⟩ := logStatement_returns env w file function line sev
      (CHECK_SEV_text false ++ rest)
    exact ⟨w', hw', checkLoop_once _ w w' hw'⟩
  · exact checkLoop_skip _ 0 w 0
  · exact checkLoop_skip _ 0 w 0
  · have he : (!check_eq 42 (Int.tdiv 84 2)) = false := by decide
    unfold CHECK_EQ CHECK_EQ_SEV
    rw [he]
    exact checkLoop_skip _ 0 w 0

/-- A concrete instance of C14: `CHECK_EQ_SEV(1, 2, WARNING)`. -/
theorem C14_check_macros_witness :
    ∃ w', logStatement sampleEnv World.start sampleFile "main".toList 12 LogSeverity_WARNING
        (CHECK_EQ_SEV_text 1 2 ++ "no way!".toList) = some w' ∧
      CHECK_EQ_SEV sampleEnv World.start sampleFile "main".toList 12 1 2 LogSeverity_WARNING
        "no way!".toList = some (w', 1) :=
  (C14_check_macros sampleEnv World.start sampleFile "main".toList 12 1 2 LogSeverity_WARNING
    "no way!".toList).1 (by decide)

/-! ## Bounds -/

theorem record_pcount (env : Env) (w : World) (file function : List Char)
    (line severity : Int) (c : List Char) :
    (record env w file function line severity c).1.stream_.pcount
      = min ((prefixText env file function line severity).length + c.length)
          (kMaxLogMessageLen - 2) ∧
    (record env w file function line severity c).1.message_text_.length
      = kMaxLogMessageLen + 1 := by
  obtain ⟨h, _⟩ := record_facts env w file function line severity c
  refine ⟨?_, h.1⟩
  show (record env w file function line severity c).1.stream_.streambuf_.pptr = _
  rw [h.2.2.1, List.length_append]

theorem Flush_record_returns (env envf : Env) (w wf : World) (file function : List Char)
    (line severity : Int) (c : List Char) :
    ∃ d' w', Flush envf (record env w file function line severity c).1 wf = some (d', w') ∧
      ((wf.FLAGS_minlogSeverity ≤ toSignedChar severity ∧
          w' = flushedWorld envf wf
            (record env w file function line severity c).1.preserved_errno_
            (record env w file function line severity c).1.severity_
            (record env w file function line severity c).1.num_prefix_chars_
            (record env w file function line severity c).1.stored) ∨
        (toSignedChar severity < wf.FLAGS_minlogSeverity ∧ w' = wf)) := by
  by_cases hs : wf.FLAGS_minlogSeverity ≤ toSignedChar severity
  · exact ⟨_, _, Flush_record env envf w wf file function line severity c hs,
      Or.inl ⟨hs, rfl⟩⟩
  · have hlt : toSignedChar severity < wf.FLAGS_minlogSeverity := by omega
    have hsev := (record_facts env w file function line severity c).2.1
    exact ⟨_, _, Flush_guard envf _ wf (Or.inr (by rw [hsev]; exact hlt)),
      Or.inr ⟨hlt, rfl⟩⟩

/-- C16: for the record of any logging statement, the used length `n` that
`Flush` reads satisfies `1 ≤ n ≤ capacity - 2 = 2046`, `message_text_` has
`2049` bytes, so the offsets `n - 1` and `n` that `Flush` reads and writes lie
inside the array, and `Flush` returns without an access outside it. -/
theorem C16_accesses_in_bounds (env envf : Env) (w wf : World) (file function : List Char)
    (line severity : Int) (c : List Char) :
    1 ≤ (record env w file function line severity c).1.stream_.pcount ∧
    (record env w file function line severity c).1.stream_.pcount ≤ kMaxLogMessageLen - 2 ∧
    kMaxLogMessageLen - 2 = 2046 ∧
    (record env w file function line severity c).1.message_text_.length = 2049 ∧
    size_t_sub (record env w file function line severity c).1.stream_.pcount 1
      < (record env w file function line severity c).1.message_text_.length ∧
    (record env w file function line severity c).1.stream_.pcount
      < (record env w file function line severity c).1.message_text_.length ∧
    size_t_sub (size_t_succ (record env w file function line severity c).1.stream_.pcount) 1
      = (record env w file function line severity c).1.stream_.pcount ∧
    ∃ d' w', Flush envf (record env w file function line severity c).1 wf
      = some (d', w') := by
  obtain ⟨hp, hl⟩ := record_pcount env w file function line severity c
  have hk : kMaxLogMessageLen = 2048 := rfl
  have hpos : 1 ≤ (prefixText env file function line severity).length :=
    List.length_pos.mpr (prefixText_ne_nil env file function line severity)
  obtain ⟨d', w', hF, _⟩ := Flush_record_returns env envf w wf file function line severity c
  refine ⟨by omega, by omega, by omega, by omega, ?_, by omega, ?_, d', w', hF⟩
  · rw [size_t_sub_of_le _ _ (by omega) (by omega)]
    omega
  · rw [size_t_succ_of_lt _ (by omega), size_t_sub_of_le _ _ (by omega) (by omega)]
    omega

/-- C18: for the record of any logging statement, the first flush writes to
the sink nothing, or one byte range that ends in a newline, starts with the
record's prefix, and has at least `num_prefix_chars_ + 2` and at most
`capacity - 1 = 2047` bytes. -/
theorem C18_dispatched_range (env envf : Env) (w wf : World) (file function : List Char)
    (line severity : Int) (c : List Char) :
    ∃ d' w', Flush envf (record env w file function line severity c).1 wf = some (d', w') ∧
      (w'.cout = wf.cout ∨
        ∃ l, w'.cout = wf.cout ++ [l] ∧
          l.getLast? = some '\n' ∧
          (record env w file function line severity c).1.prefixBytes <+: l ∧
          (record env w file function line severity c).1.prefixBytes.length
            = (record env w file function line severity c).1.num_prefix_chars_ ∧
          (record env w file function line severity c).1.num_prefix_chars_ + 2 ≤ l.length ∧
          l.length ≤ kMaxLogMessageLen - 1 ∧ kMaxLogMessageLen - 1 = 2047) := by
  obtain ⟨hp, hl⟩ := record_pcount env w file function line severity c
  have hle := record_num_prefix_le env w file function line severity c
  have hk : kMaxLogMessageLen = 2048 := rfl
  obtain ⟨d', w', hF, hw⟩ := Flush_record_returns env envf w wf file function line severity c
  refine ⟨d', w', hF, ?_⟩
  rcases hw with ⟨_, hw⟩ | ⟨_, hw⟩
  · rw [hw, flushedWorld_cout]
    split
    · next hgt =>
      right
      have hstl : (record env w file function line severity c).1.stored.length
          = (record env w file function line severity c).1.stream_.pcount := by
        unfold LogMessageData.stored
        rw [List.length_take]
        omega
      refine ⟨_, rfl, ?_, ?_, ?_, by omega, ?_, by omega⟩
      · unfold withNewline
        split
        · next h => exact h
        · exact List.getLast?_concat _
      · rw [withNewline_eq]
        exact (List.take_prefix_take_left _ hle).trans (List.prefix_append _ _)
      · unfold LogMessageData.prefixBytes
        rw [List.length_take]
        omega
      · rw [withNewline_length, hstl]
        split <;> omega
    · exact Or.inl rfl
  · rw [hw]
    exact Or.inl rfl

/-- C19: when the text `Init` formats as prefix has at least
`capacity - 2 = 2046` bytes, the record holds its first 2046 bytes as prefix
and nothing of what is streamed, the first flush writes nothing to the sink
whatever the content, the severity and the threshold, and a `FATAL` record
under a threshold of the scale is still aborted on. -/
theorem C19_prefix_fills_buffer (env envf : Env) (w wf : World) (file function : List Char)
    (line severity : Int) (c : List Char)
    (hlong : kMaxLogMessageLen - 2 ≤ (prefixText env file function line severity).length) :
    (record env w file function line severity c).1.num_prefix_chars_
      = kMaxLogMessageLen - 2 ∧
    (record env w file function line severity c).1.prefixBytes
      = (prefixText env file function line severity).take (kMaxLogMessageLen - 2) ∧
    (record env w file function line severity c).1.stored
      = (record env w file function line severity c).1.prefixBytes ∧
    ∃ d' w', Flush envf (record env w file function line severity c).1 wf = some (d', w') ∧
      w'.cout = wf.cout ∧ w'.disk = wf.disk ∧
      (severity = LogSeverity_FATAL → wf.FLAGS_minlogSeverity ≤ LogSeverity_FATAL →
        w'.aborted = true) := by
  obtain ⟨_, hsev, _, _, h5, _⟩ := record_facts env w file function line severity c
  have hpb := record_prefixBytes env w file function line severity c
  have hst := record_stored env w file function line severity c
  have hk : kMaxLogMessageLen = 2048 := rfl
  have hnp : (record env w file function line severity c).1.num_prefix_chars_
      = kMaxLogMessageLen - 2 := by
    rw [h5]; omega
  have hst2 : (record env w file function line severity c).1.stored
      = (prefixText env file function line severity).take (kMaxLogMessageLen - 2) := by
    rw [hst, List.take_append_of_le_length hlong]
  have hno : ¬ (withNewline (record env w file function line severity c).1.stored).length
      > (record env w file function line severity c).1.num_prefix_chars_ + 1 := by
    rw [withNewline_length, hst2, hnp, List.length_take]
    split <;> omega
  obtain ⟨d', w', hF, hw⟩ := Flush_record_returns env envf w wf file function line severity c
  refine ⟨hnp, hpb, by rw [hst2, hpb], d', w', hF, ?_, ?_, ?_⟩
  · rcases hw with ⟨_, hw⟩ | ⟨_, hw⟩
    · rw [hw, flushedWorld_cout, if_neg hno]
    · rw [hw]
  · rcases hw with ⟨_, hw⟩ | ⟨_, hw⟩
    · rw [hw, flushedWorld_disk, if_neg hno]
    · rw [hw]
  · intro hfat hthr
    have hts : toSignedChar severity = LogSeverity_FATAL := by rw [hfat]; decide
    rcases hw with ⟨_, hw⟩ | ⟨hlt, _⟩
    · rw [hw, flushedWorld_aborted, hsev, hts, if_pos rfl]
    · rw [hts] at hlt
      omega

/-- A concrete instance of C19: a function name of three thousand bytes. -/
theorem C19_prefix_fills_buffer_witness :
    (record sampleEnv World.start sampleFile (List.replicate 3000 'f') 8 LogSeverity_FATAL
      "hello!".toList).1.num_prefix_chars_ = kMaxLogMessageLen - 2 :=
  (C19_prefix_fills_buffer sampleEnv sampleEnv World.start World.start sampleFile
    (List.replicate 3000 'f') 8 LogSeverity_FATAL "hello!".toList
    (Nat.le_trans (by rw [List.length_replicate]; decide)
      (prefixText_length_ge sampleEnv sampleFile (List.replicate 3000 'f') 8
        LogSeverity_FATAL))).1

/-! ## What `Flush` leaves untouched -/

theorem size_t_sub_succ (n : Nat) (h : n < 2 ^ 64) : size_t_sub (size_t_succ n) 1 = n := by
  unfold size_t_sub size_t_succ
  omega

theorem SendToLog_frame (env : Env) (d : LogMessageData) (w w1 : World)
    (h : SendToLog env d w = some w1) :
    w1.FLAGS_minlogSeverity = w.FLAGS_minlogSeverity ∧
    w1.g_current_log_file = w.g_current_log_file ∧
    w1.open_streams = w.open_streams := by
  unfold SendToLog at h
  split at h
  · split at h
    · simp only [Option.some.injEq] at h
      rw [← h]
      exact ⟨rfl, rfl, rfl⟩
    · exact Option.noConfusion h
  · simp only [Option.some.injEq] at h
    rw [← h]
    exact ⟨rfl, rfl, rfl⟩

/-- C17: when a call of `Flush` on a record whose used length is a `size_t`
value returns, the record differs from what it was at most in
`num_chars_to_log_`, `num_chars_to_syslog_` and `has_been_flushed_`: all
bytes of `message_text_` and the stream, so its used length, are as before;
of the world only the sinks, `errno` and the abort are touched, not the
threshold nor the destination file handle. -/
theorem C17_flush_restores_buffer (env : Env) (d d' : LogMessageData) (w w' : World)
    (hn : d.stream_.pcount < 2 ^ 64) (h : Flush env d w = some (d', w')) :
    d' = { d with
      num_chars_to_log_ := d'.num_chars_to_log_
      num_chars_to_syslog_ := d'.num_chars_to_syslog_
      has_been_flushed_ := d'.has_been_flushed_ } ∧
    d'.message_text_ = d.message_text_ ∧
    d'.stream_.pcount = d.stream_.pcount ∧
    w'.FLAGS_minlogSeverity = w.FLAGS_minlogSeverity ∧
    w'.g_current_log_file = w.g_current_log_file ∧
    w'.open_streams = w.open_streams := by
  unfold Flush at h
  split at h
  · simp only [Option.some.injEq, Prod.mk.injEq] at h
    obtain ⟨rfl, rfl⟩ := h
    exact ⟨rfl, rfl, rfl, rfl, rfl, rfl⟩
  · simp only [Option.bind_eq_bind] at h
    cases hlast : d.message_text_[size_t_sub d.stream_.pcount 1]? with
    | none => simp [hlast] at h
    | some last =>
      simp only [hlast, Option.some_bind] at h
      by_cases hnl : last = '\n'
      · simp only [hnl, bne_self_eq_false, Bool.false_eq_true, if_false,
          Option.some_bind] at h
        cases hsend : SendToLog env
            { d with
              num_chars_to_log_ := d.stream_.pcount
              num_chars_to_syslog_ := size_t_sub d.stream_.pcount d.num_prefix_chars_ } w with
        | none => simp [hsend] at h
        | some w1 =>
          obtain ⟨f1, f2, f3⟩ := SendToLog_frame env _ w w1 hsend
          simp only [hsend, Option.some_bind, Option.some.injEq, Prod.mk.injEq] at h
          obtain ⟨rfl, rfl⟩ := h
          refine ⟨rfl, rfl, rfl, ?_, ?_, ?_⟩
          · simp only [abort]; split_ifs <;> exact f1
          · simp only [abort]; split_ifs <;> exact f2
          · simp only [abort]; split_ifs <;> exact f3
      · have hbne : (last != '\n') = true := by simpa using hnl
        simp only [hbne, if_true] at h
        cases horig : d.message_text_[d.stream_.pcount]? with
        | none => simp [horig] at h
        | some orig =>
          simp only [horig, Option.some_bind] at h
          cases hsend : SendToLog env
              { d with
                num_chars_to_syslog_ := size_t_sub d.stream_.pcount d.num_prefix_chars_
                message_text_ := d.message_text_.set d.stream_.pcount '\n'
                num_chars_to_log_ := size_t_succ d.stream_.pcount } w with
          | none => simp [hsend] at h
          | some w1 =>
            obtain ⟨f1, f2, f3⟩ := SendToLog_frame env _ w w1 hsend
            have hlt : d.stream_.pcount < d.message_text_.length := by
              by_contra hge
              rw [List.getElem?_eq_none (by omega)] at horig
              exact Option.noConfusion horig
            simp only [hsend, Option.some_bind, size_t_sub_succ _ hn, List.length_set, hlt,
              if_true, List.set_set, set_of_getElem? _ _ _ horig, Option.some.injEq,
              Prod.mk.injEq] at h
            obtain ⟨rfl, rfl⟩ := h
            refine ⟨rfl, rfl, rfl, ?_, ?_, ?_⟩
            · simp only [abort]; split_ifs <;> exact f1
            · simp only [abort]; split_ifs <;> exact f2
            · simp only [abort]; split_ifs <;> exact f3

/-- A concrete instance of C17: the first flush of `LOG(INFO) << "hello!"`. -/
theorem C17_flush_restores_buffer_witness :
    ∃ d' w', Flush sampleEnv (record sampleEnv World.start sampleFile [] 8 LogSeverity_INFO
        "hello!".toList).1 World.start = some (d', w') ∧
      d'.message_text_ = (record sampleEnv World.start sampleFile [] 8 LogSeverity_INFO
        "hello!".toList).1.message_text_ ∧
      d'.stream_.pcount = (record sampleEnv World.start sampleFile [] 8 LogSeverity_INFO
        "hello!".toList).1.stream_.pcount := by
  obtain ⟨d', w', hF, _⟩ := Flush_record_returns sampleEnv sampleEnv World.start World.start
    sampleFile [] 8 LogSeverity_INFO "hello!".toList
  have h := C17_flush_restores_buffer sampleEnv _ d' World.start w'
    (by rw [(record_pcount _ _ _ _ _ _ _).1]
        exact Nat.lt_of_le_of_lt (Nat.min_le_right _ _) (by decide))
    hF
  exact ⟨d', w', hF, h.2.1, h.2.2.1⟩

/-! ## What `abort()` drops -/

/-- What is left of `LOG(FATAL) << "hello!"` when `stdout` and the log file
`log.txt` are fully buffered: the line was passed to `std::cout.write`, the
process is aborted, and neither the device behind `stdout` nor the file on
the disk has a byte of it. -/
theorem fatal_line_dropped_by_abort :
    ∃ d' w', Flush sampleEnv
        (record sampleEnv (SetCurrentLogFilename sampleFileEnv (some "log.txt".toList)
          World.start) sampleFile [] 8 LogSeverity_FATAL "hello!".toList).1
        (SetCurrentLogFilename sampleFileEnv (some "log.txt".toList) World.start)
        = some (d', w') ∧
      w'.aborted = true ∧
      w'.cout = ["[F 01/02 03:04:05.007 1700000000  0x7f main.cpp:8] hello!\n".toList] ∧
      w'.stdout_device = [] ∧ w'.stdout_buffer = [] ∧
      fileOnDisk w' "log.txt".toList = some [] := by
  obtain ⟨d', hF⟩ := Flush_kept sampleEnv sampleEnv
    (SetCurrentLogFilename sampleFileEnv (some "log.txt".toList) World.start)
    (SetCurrentLogFilename sampleFileEnv (some "log.txt".toList) World.start)
    sampleFile [] 8 LogSeverity_FATAL "hello!".toList (by decide)
  have hp : (LogMessage_ctor sampleEnv
      (SetCurrentLogFilename sampleFileEnv (some "log.txt".toList) World.start) sampleFile []
      8 LogSeverity_FATAL).1.prefixBytes
      = "[F 01/02 03:04:05.007 1700000000  0x7f main.cpp:8] ".toList := by
    rw [Init_prefixBytes]
    decide
  rw [hp] at hF
  have hts : toSignedChar LogSeverity_FATAL = LogSeverity_FATAL := by decide
  rw [hts] at hF
  have hgt : (withNewline ("[F 01/02 03:04:05.007 1700000000  0x7f main.cpp:8] ".toList
      ++ "hello!".toList.take (kMaxLogMessageLen - 2
        - "[F 01/02 03:04:05.007 1700000000  0x7f main.cpp:8] ".toList.length))).length
      > "[F 01/02 03:04:05.007 1700000000  0x7f main.cpp:8] ".toList.length + 1 := by
    decide
  obtain ⟨hd1, hd2, _, hd4⟩ := flushedWorld_fatal_devices sampleEnv
    (SetCurrentLogFilename sampleFileEnv (some "log.txt".toList) World.start)
    (SetCurrentLogFilename sampleFileEnv (some "log.txt".toList) World.start).errno _ _ hgt
  refine ⟨d', _, hF, ?_, ?_, ?_, hd2, ?_⟩
  · rw [flushedWorld_aborted, if_pos rfl]
  · rw [flushedWorld_cout, if_pos hgt]
    decide
  · rw [hd1]
    decide
  · unfold fileOnDisk
    rw [flushedWorld_g_current_log_file, hd4]
    decide

end wn
